import Mathlib

/-!
Shallow embedding of the per-printer job queue and dispatch engine of
`src/app.py` (models in `src/models.py`).  Timestamps are modelled as `Nat`
(the value of `datetime.utcnow()` at the moment of the request), the Job
Store (`print_jobs` table) as a list of records ordered by insertion, and
the external world (environment variables read by `os.environ.get` and the
child process run by `subprocess.run`) as an explicit `Env` record of
functions.
-/

namespace ASME

/-- Job status column: `queued/printing/done/failed` (models.py line 75). -/
inductive Status where
  | queued
  | printing
  | done
  | failed
deriving DecidableEq, Repr

/-- One row of the `print_jobs` table (models.py lines 65-80). -/
structure PrintJob where
  id : Nat
  memberId : Nat
  printerType : String
  fileName : String
  filePath : String
  notes : Option String
  status : Status
  submittedAt : Nat
  startedAt : Option Nat
  completedAt : Option Nat
deriving DecidableEq, Repr

/-- The Job Store: the rows of `print_jobs` in insertion order, plus the next
auto-increment primary key. -/
structure Store where
  jobs : List PrintJob
  nextId : Nat
deriving DecidableEq, Repr

/-- The empty database, with auto-increment ids starting at 1. -/
def Store.init : Store := { jobs := [], nextId := 1 }

/-- Outcome of `subprocess.run(command, shell=True, capture_output=True,
text=True)`. -/
structure ProcResult where
  returncode : Int
  stdout : String
  stderr : String
deriving DecidableEq, Repr

/-- The external world seen by the launcher: `os.environ.get` and the child
process executor. -/
structure Env where
  getEnv : String → Option String
  run : String → ProcResult

/-- `PRINTER_TYPES = ("H2S", "P1S")` (app.py line 29). -/
def PRINTER_TYPES : List String := ["H2S", "P1S"]

/-- `ALLOWED_GCODE_EXTENSIONS = {"gcode", "gco", "3mf"}` (app.py line 32). -/
def ALLOWED_GCODE_EXTENSIONS : List String := ["gcode", "gco", "3mf"]

/-- Python `str.split(".")` over the characters of a string (the last
component equals `rsplit(".", 1)[1]` whenever a dot is present). -/
def split_on_dot : List Char → List (List Char)
  | [] => [[]]
  | c :: rest =>
      let r := split_on_dot rest
      if c = '.' then [] :: r
      else
        match r with
        | [] => [[c]]
        | h :: t => (c :: h) :: t

/-- `allowed_gcode` (app.py lines 518-522): the part after the last dot,
lowercased, must be a permitted extension. -/
def allowed_gcode (filename : String) : Bool :=
  if !(filename.data.contains '.') then false
  else
    let ext := String.mk (((split_on_dot filename.data).getLastD []).map Char.toLower)
    ALLOWED_GCODE_EXTENSIONS.contains ext

/-- Python string truthiness fallback `a or b` for strings: empty is falsy. -/
def str_or (a b : String) : String := if a = "" then b else a

/-- Python slice `s[:n]`: the first `n` characters. -/
def py_slice (s : String) (n : Nat) : String := String.mk (s.data.take n)

/-- `cmd_template.format(file=..., filename=..., job_id=...)` (app.py line
621): the three placeholder substitutions. -/
def print_command (cmd_template : String) (job : PrintJob) : String :=
  ((cmd_template.replace "{file}" job.filePath).replace "{filename}" job.fileName).replace
    "{job_id}" (toString job.id)

/-- `launch_print_command` (app.py lines 612-627).  Looks up the command
template `ASME_{printer_type}_PRINT_CMD`; absent (or empty, which Python's
`if not cmd_template` also treats as unset) yields a configuration-error
diagnostic without running anything.  Otherwise substitutes the three
placeholders, runs the command, and returns `none` on exit status 0, else a
diagnostic built from stderr (falling back to stdout) truncated to 300
characters.  Returns `none` for success, `some diagnostic` for failure. -/
def launch_print_command (env : Env) (job : PrintJob) : Option String :=
  let env_name := "ASME_" ++ job.printerType ++ "_PRINT_CMD"
  match env.getEnv env_name with
  | none =>
      some (env_name ++ " is not configured. Add it to print_commands.env and restart the app.")
  | some cmd_template =>
      if cmd_template = "" then
        some (env_name ++ " is not configured. Add it to print_commands.env and restart the app.")
      else
        let result := env.run (print_command cmd_template job)
        if result.returncode = 0 then none
        else
          let error_text := (str_or result.stderr (str_or result.stdout "print command failed")).trim
          some (env_name ++ " failed: " ++ py_slice error_text 300)

/-- Row filter for `PrintJob.query.filter_by(printer_type=pt, status=st)`. -/
def jobMatches (pt : String) (st : Status) (j : PrintJob) : Bool :=
  decide (j.printerType = pt ∧ j.status = st)

/-- SQL ordering key `(submitted_at, id)` ascending, strictly. -/
def keyLt (a b : PrintJob) : Bool :=
  decide (a.submittedAt < b.submittedAt ∨ (a.submittedAt = b.submittedAt ∧ a.id < b.id))

/-- `.order_by(k asc).first()`: the leftmost minimal element under `lt`. -/
def first_by (lt : PrintJob → PrintJob → Bool) : List PrintJob → Option PrintJob
  | [] => none
  | j :: rest =>
      match first_by lt rest with
      | none => some j
      | some m => if lt m j then some m else some j

/-- `PrintJob.query.filter_by(printer_type=pt, status="printing").first()`
(app.py line 585). -/
def find_active (pt : String) (s : Store) : Option PrintJob :=
  s.jobs.find? (jobMatches pt Status.printing)

/-- The earliest queued job for `pt` ordered by `(submitted_at, id)`
(app.py lines 589-593). -/
def find_next_queued (pt : String) (s : Store) : Option PrintJob :=
  first_by keyLt (s.jobs.filter (jobMatches pt Status.queued))

/-- Number of queued rows for a printer type (the dispatch recursion
measure). -/
def countQueued (pt : String) (s : Store) : Nat :=
  (s.jobs.filter (jobMatches pt Status.queued)).length

/-- Number of rows with `status="printing"` for a printer type. -/
def countActive (pt : String) (s : Store) : Nat :=
  (s.jobs.filter (jobMatches pt Status.printing)).length

/-- The promotion `next_job.status = "printing"; next_job.started_at = now`
as a record update (app.py lines 597-598). -/
def startJob (now : Nat) (j : PrintJob) : PrintJob :=
  { j with status := Status.printing, startedAt := some now }

/-- Python `f"{notes} | {err}" if notes else err`: append the failure
diagnostic to non-empty existing notes, never overwriting them. -/
def append_note (notes : Option String) (err : String) : Option String :=
  match notes with
  | some n => if n = "" then some err else some (n ++ " | " ++ err)
  | none => some err

/-- The failure update `status = "failed"; completed_at = now; notes = ...`
as a record update (app.py lines 603-605). -/
def failJob (now : Nat) (err : String) (j : PrintJob) : PrintJob :=
  { j with status := Status.failed, completedAt := some now, notes := append_note j.notes err }

/-- Commit of the promotion into the store: the row with the given primary
key becomes `printing` with `started_at` stamped. -/
def mark_printing (nid now : Nat) (jobs : List PrintJob) : List PrintJob :=
  jobs.map (fun j => if j.id = nid then startJob now j else j)

/-- Commit of the dispatch failure into the store: the row with the given
primary key becomes `failed` with `completed_at` stamped and the diagnostic
appended to its notes. -/
def mark_failed (nid now : Nat) (err : String) (jobs : List PrintJob) : List PrintJob :=
  jobs.map (fun j => if j.id = nid then failJob now err j else j)

theorem startJob_id (now : Nat) (j : PrintJob) : (startJob now j).id = j.id := rfl

theorem failJob_id (now : Nat) (err : String) (j : PrintJob) : (failJob now err j).id = j.id := rfl

/-- Failing the freshly promoted row collapses the two per-row updates into
one map keyed on the primary key. -/
theorem mark_failed_mark_printing (nid now : Nat) (err : String) (jobs : List PrintJob) :
    mark_failed nid now err (mark_printing nid now jobs) =
      jobs.map (fun j => if j.id = nid then failJob now err (startJob now j) else j) := by
  rw [mark_failed, mark_printing, List.map_map]
  apply List.map_congr_left
  intro j _
  by_cases h : j.id = nid <;> simp [Function.comp, h, startJob_id]

theorem countP_le_of_mono {α : Type} (l : List α) (p q : α → Bool)
    (hmono : ∀ x ∈ l, p x = true → q x = true) :
    l.countP p ≤ l.countP q := by
  induction l with
  | nil => simp
  | cons a t ih =>
    simp only [List.countP_cons]
    have h1 : t.countP p ≤ t.countP q :=
      ih (fun y hy => hmono y (List.mem_cons_of_mem _ hy))
    by_cases hp : p a = true
    · have hq := hmono a (List.mem_cons_self a t) hp
      simp [hp, hq]
      omega
    · have hp2 : p a = false := by simpa using hp
      simp [hp2]
      split <;> omega

/-- A pointwise-weaker predicate that fails on at least one member counting
strictly fewer hits than a predicate it implies. -/
theorem countP_lt_of_pointwise {α : Type} {l : List α} {p q : α → Bool}
    (hmono : ∀ x ∈ l, p x = true → q x = true)
    {x : α} (hx : x ∈ l) (hqx : q x = true) (hpx : p x = false) :
    l.countP p < l.countP q := by
  induction l with
  | nil => cases hx
  | cons a t ih =>
    simp only [List.countP_cons]
    rcases List.mem_cons.mp hx with rfl | hxt
    · have h1 : t.countP p ≤ t.countP q :=
        countP_le_of_mono t p q (fun y hy => hmono y (List.mem_cons_of_mem _ hy))
      simp [hpx, hqx]
      omega
    · have h2 : (if p a = true then 1 else 0) ≤ (if q a = true then 1 else 0) := by
        by_cases hpa : p a = true
        · simp [hpa, hmono a (List.mem_cons_self a t) hpa]
        · simp [hpa]
      have h3 := ih (fun y hy => hmono y (List.mem_cons_of_mem _ hy)) hxt
      omega

theorem first_by_mem {lt : PrintJob → PrintJob → Bool} :
    ∀ {l : List PrintJob} {j : PrintJob}, first_by lt l = some j → j ∈ l := by
  intro l
  induction l with
  | nil => intro j h; cases h
  | cons a t ih =>
    intro j h
    unfold first_by at h
    split at h
    · cases h
      exact List.mem_cons_self a t
    · rename_i m hm
      split at h
      · cases h
        exact List.mem_cons_of_mem a (ih hm)
      · cases h
        exact List.mem_cons_self a t

theorem first_by_eq_none {lt : PrintJob → PrintJob → Bool} :
    ∀ {l : List PrintJob}, first_by lt l = none ↔ l = [] := by
  intro l
  cases l with
  | nil => simp [first_by]
  | cons a t =>
    constructor
    · intro h
      exfalso
      unfold first_by at h
      split at h
      · cases h
      · split at h <;> cases h
    · intro h
      exact (List.cons_ne_nil a t h).elim

/-- The row the dispatcher promotes really is a queued row of the requested
printer type present in the store. -/
theorem find_next_queued_spec {pt : String} {s : Store} {j : PrintJob}
    (h : find_next_queued pt s = some j) :
    j ∈ s.jobs ∧ j.printerType = pt ∧ j.status = Status.queued := by
  have hmem := first_by_mem h
  have hfil := List.mem_filter.mp hmem
  refine ⟨hfil.1, ?_, ?_⟩
  · have := hfil.2
    simp [jobMatches] at this
    exact this.1
  · have := hfil.2
    simp [jobMatches] at this
    exact this.2

/-- The dispatch-failure commit strictly shrinks the queued count for the
printer type: the recursion measure of `dispatch_next_job`. -/
theorem countQueued_fail_lt (pt : String) (now : Nat) (err : String) (s : Store)
    {j : PrintJob} (hq : find_next_queued pt s = some j) :
    countQueued pt
        { s with jobs := mark_failed j.id now err (mark_printing j.id now s.jobs) } <
      countQueued pt s := by
  obtain ⟨hmem, hpt, hst⟩ := find_next_queued_spec hq
  rw [countQueued, countQueued, mark_failed_mark_printing]
  rw [← List.countP_eq_length_filter, ← List.countP_eq_length_filter, List.countP_map]
  refine countP_lt_of_pointwise ?_ hmem ?_ ?_
  · intro x _ hx
    by_cases h : x.id = j.id
    · exfalso
      simp [Function.comp, h, jobMatches, failJob] at hx
    · simpa [Function.comp, h] using hx
  · simp [jobMatches, hpt, hst]
  · simp [Function.comp, jobMatches, failJob]

/-- `dispatch_next_job` (app.py lines 584-609).  If a job of this printer
type is already printing, do nothing.  Otherwise promote the earliest queued
job (by `(submitted_at, id)`), commit, invoke the launcher; on launcher
failure mark the job failed (stamping `completed_at`, appending the
diagnostic) and recurse to try the next queued job. -/
def dispatch_next_job (env : Env) (now : Nat) (pt : String) (s : Store) :
    Option PrintJob × Store :=
  match find_active pt s with
  | some _ => (none, s)
  | none =>
    match hq : find_next_queued pt s with
    | none => (none, s)
    | some next_job =>
      match launch_print_command env (startJob now next_job) with
      | none =>
          (some (startJob now next_job), { s with jobs := mark_printing next_job.id now s.jobs })
      | some err =>
          dispatch_next_job env now pt
            { s with jobs := mark_failed next_job.id now err (mark_printing next_job.id now s.jobs) }
  termination_by countQueued pt s
  decreasing_by
    exact countQueued_fail_lt pt now err s hq

/-- `db.session.get(PrintJob, job_id)`: primary-key lookup. -/
def get_job (job_id : Nat) (s : Store) : Option PrintJob :=
  s.jobs.find? (fun j => decide (j.id = job_id))

/-- The `status = "done"; completed_at = now` commit of the complete
handlers (app.py lines 1305-1307 and 1461-1463). -/
def mark_done_manual (jid now : Nat) (jobs : List PrintJob) : List PrintJob :=
  jobs.map (fun j =>
    if j.id = jid then { j with status := Status.done, completedAt := some now } else j)

/-- The `status = "failed"; completed_at = now` commit of the fail handlers
(app.py lines 1319-1321 and 1477-1479). -/
def mark_failed_manual (jid now : Nat) (jobs : List PrintJob) : List PrintJob :=
  jobs.map (fun j =>
    if j.id = jid then { j with status := Status.failed, completedAt := some now } else j)

/-- `complete_print_job` / `api_complete_print_job` (app.py lines 1299-1310
and 1454-1467), stripped of the HTTP wrapper: unknown id is rejected with an
error and no change; otherwise the job is marked done with `completed_at`
stamped and the dispatcher runs for its printer type.  Returns
`(error message or none, store)`. -/
def complete_print_job (env : Env) (now : Nat) (job_id : Nat) (s : Store) :
    Option String × Store :=
  match get_job job_id s with
  | none => (some "Print job not found.", s)
  | some job =>
      let s1 : Store := { s with jobs := mark_done_manual job_id now s.jobs }
      (none, (dispatch_next_job env now job.printerType s1).2)

/-- `fail_print_job` / `api_fail_print_job` (app.py lines 1313-1324 and
1470-1483): symmetric to complete but marks the job failed. -/
def fail_print_job (env : Env) (now : Nat) (job_id : Nat) (s : Store) :
    Option String × Store :=
  match get_job job_id s with
  | none => (some "Print job not found.", s)
  | some job =>
      let s1 : Store := { s with jobs := mark_failed_manual job_id now s.jobs }
      (none, (dispatch_next_job env now job.printerType s1).2)

/-- Outcome of the best-effort `os.remove` of the job's payload file. -/
inductive FileOutcome where
  | removed
  | missing
  | error (msg : String)
deriving DecidableEq, Repr

/-- The dictionary returned by `delete_print_job_with_file`. -/
structure DeleteResult where
  fileName : String
  fileRemoved : Bool
  fileError : Option String
deriving DecidableEq, Repr

/-- `delete_print_job_with_file` (app.py lines 525-547): attempt to remove
the payload file (a failure is recorded, not raised), delete the job row
regardless, commit, and run the dispatcher for the job's printer type as a
safety net. -/
def delete_print_job_with_file (env : Env) (now : Nat) (fo : FileOutcome) (job : PrintJob)
    (s : Store) : DeleteResult × Store :=
  let file_removed := match fo with | FileOutcome.removed => true | _ => false
  let file_error := match fo with | FileOutcome.error msg => some msg | _ => none
  let s1 : Store := { s with jobs := s.jobs.filter (fun k => decide (k.id ≠ job.id)) }
  let s2 := (dispatch_next_job env now job.printerType s1).2
  ({ fileName := job.fileName, fileRemoved := file_removed, fileError := file_error }, s2)

/-- `api_delete_print_job` / `delete_print_job` (app.py lines 1327-1342 and
1511-1528): unknown id rejected; an active (`printing`) job cannot be
deleted; otherwise delegate to `delete_print_job_with_file`. -/
def api_delete_print_job (env : Env) (now : Nat) (fo : FileOutcome) (job_id : Nat)
    (s : Store) : Option String × Store :=
  match get_job job_id s with
  | none => (some "Print job not found.", s)
  | some job =>
      if job.status = Status.printing then
        (some "Cannot delete an active printing job. Mark it done or failed first.", s)
      else
        let r := delete_print_job_with_file env now fo job s
        (none, r.2)

/-- `submit_print_job` / `api_print_submit` (app.py lines 1259-1296 and
1410-1451), stripped of the HTTP wrapper and with the member already
resolved (member lookup is an external collaborator): validate the printer
type against `PRINTER_TYPES`, require an uploaded file with an allowed
extension, insert a new `queued` row stamped with `submitted_at`, and run
the dispatcher for that printer type. -/
def submit_print_job (env : Env) (now member_id : Nat) (printer_type : String)
    (file_name file_path : String) (notes : Option String) (s : Store) :
    Option String × Store :=
  if printer_type ∉ PRINTER_TYPES then (some "Invalid printer queue selected.", s)
  else if file_name = "" then (some "Please upload a print file.", s)
  else if !(allowed_gcode file_name) then
    (some "Invalid file type. Use .gcode, .gco, or .3mf.", s)
  else
    let job : PrintJob :=
      { id := s.nextId, memberId := member_id, printerType := printer_type,
        fileName := file_name, filePath := file_path, notes := notes,
        status := Status.queued, submittedAt := now, startedAt := none, completedAt := none }
    let s1 : Store := { jobs := s.jobs ++ [job], nextId := s.nextId + 1 }
    (none, (dispatch_next_job env now printer_type s1).2)

/-- SQL ordering rank of a nullable timestamp: NULL sorts before every
value (SQLite places NULLs first ascending, last descending). -/
def optRank : Option Nat → Nat
  | none => 0
  | some n => n + 1

/-- SQL key `(started_at, id)` ascending with NULLs first (the order used
for the snapshot's active row). -/
def startedKeyLt (a b : PrintJob) : Bool :=
  decide (optRank a.startedAt < optRank b.startedAt ∨
    (optRank a.startedAt = optRank b.startedAt ∧ a.id < b.id))

/-- SQL key `(completed_at, id)`: `a` strictly older than `b`, NULLs
smallest (so that descending order puts them last). -/
def finKeyLt (a b : PrintJob) : Bool :=
  decide (optRank a.completedAt < optRank b.completedAt ∨
    (optRank a.completedAt = optRank b.completedAt ∧ a.id < b.id))

/-- Row filter for the snapshot's `status.in_(["done", "failed"])` query. -/
def isFinished (pt : String) (j : PrintJob) : Bool :=
  decide (j.printerType = pt ∧ (j.status = Status.done ∨ j.status = Status.failed))

/-- One printer's entry in the queue snapshot payload. -/
structure QueueSnap where
  active : Option PrintJob
  queued : List PrintJob
  recentFinished : List PrintJob
deriving DecidableEq, Repr

/-- The body of `get_queue_snapshot`'s loop (app.py lines 725-749) for one
printer type: the first `printing` row by `(started_at, id)`, all `queued`
rows ordered by `(submitted_at, id)`, and the 8 most recent terminal rows
ordered by `(completed_at, id)` descending. -/
def snapshot_for (pt : String) (s : Store) : QueueSnap :=
  { active := first_by startedKeyLt (s.jobs.filter (jobMatches pt Status.printing)),
    queued := (s.jobs.filter (jobMatches pt Status.queued)).mergeSort (fun a b => !(keyLt b a)),
    recentFinished :=
      ((s.jobs.filter (isFinished pt)).mergeSort (fun a b => !(finKeyLt a b))).take 8 }

/-- `get_queue_snapshot` (app.py lines 723-750): the per-printer payload for
every configured printer type.  It is a pure projection of the store: it
returns no store and can mutate nothing. -/
def get_queue_snapshot (s : Store) : List (String × QueueSnap) :=
  PRINTER_TYPES.map (fun pt => (pt, snapshot_for pt s))

/-- One sequential request against the system: the five operations of the
print-queue engine. -/
inductive Op where
  | submit (env : Env) (now member_id : Nat) (printer_type file_name file_path : String)
      (notes : Option String)
  | complete (env : Env) (now job_id : Nat)
  | fail (env : Env) (now job_id : Nat)
  | delete (env : Env) (now : Nat) (fo : FileOutcome) (job_id : Nat)
  | dispatch (env : Env) (now : Nat) (printer_type : String)

/-- Store transition of one request. -/
def applyOp (s : Store) : Op → Store
  | Op.submit env now m pt fn fp notes => (submit_print_job env now m pt fn fp notes s).2
  | Op.complete env now jid => (complete_print_job env now jid s).2
  | Op.fail env now jid => (fail_print_job env now jid s).2
  | Op.delete env now fo jid => (api_delete_print_job env now fo jid s).2
  | Op.dispatch env now pt => (dispatch_next_job env now pt s).2

/-- States reachable from the empty database by sequential requests. -/
inductive Reachable : Store → Prop where
  | init : Reachable Store.init
  | step {s : Store} (op : Op) : Reachable s → Reachable (applyOp s op)

/-! Branch equations of `dispatch_next_job`. -/

theorem dispatch_of_active {env : Env} {now : Nat} {pt : String} {s : Store} {a : PrintJob}
    (ha : find_active pt s = some a) : dispatch_next_job env now pt s = (none, s) := by
  rw [dispatch_next_job, ha]

theorem dispatch_of_empty {env : Env} {now : Nat} {pt : String} {s : Store}
    (ha : find_active pt s = none) (hq : find_next_queued pt s = none) :
    dispatch_next_job env now pt s = (none, s) := by
  rw [dispatch_next_job, ha]
  split
  · rename_i hnext
    simp at hnext
  · split
    · rfl
    · rename_i next hnext
      rw [hq] at hnext
      simp at hnext

theorem dispatch_of_success {env : Env} {now : Nat} {pt : String} {s : Store} {j : PrintJob}
    (ha : find_active pt s = none) (hq : find_next_queued pt s = some j)
    (hl : launch_print_command env (startJob now j) = none) :
    dispatch_next_job env now pt s =
      (some (startJob now j), { s with jobs := mark_printing j.id now s.jobs }) := by
  rw [dispatch_next_job, ha]
  split
  · rename_i hnext
    simp at hnext
  · split
    · rename_i hnone
      rw [hq] at hnone
      simp at hnone
    · rename_i j2 hj2
      rw [hq] at hj2
      cases hj2
      rw [hl]

theorem dispatch_of_fail {env : Env} {now : Nat} {pt : String} {s : Store} {j : PrintJob}
    {err : String} (ha : find_active pt s = none) (hq : find_next_queued pt s = some j)
    (hl : launch_print_command env (startJob now j) = some err) :
    dispatch_next_job env now pt s =
      dispatch_next_job env now pt
        { s with jobs := mark_failed j.id now err (mark_printing j.id now s.jobs) } := by
  rw [dispatch_next_job, ha]
  split
  · rename_i hnext
    simp at hnext
  · split
    · rename_i hnone
      rw [hq] at hnone
      simp at hnone
    · rename_i j2 hj2
      rw [hq] at hj2
      cases hj2
      rw [hl]

/-! Helper lemmas for the dispatch analysis. -/

/-- How a single dispatch pass may rewrite one row: leave it alone, or (when
it was the queued head for this printer type) promote it — and possibly fail
it with the diagnostic appended. -/
def JobEvol (pt : String) (now : Nat) (j k : PrintJob) : Prop :=
  k = j ∨
    (j.status = Status.queued ∧ j.printerType = pt ∧
      (k = startJob now j ∨ ∃ err, k = failJob now err (startJob now j)))

theorem JobEvol.refl (pt : String) (now : Nat) (j : PrintJob) : JobEvol pt now j j :=
  Or.inl rfl

theorem JobEvol.chain {pt : String} {now : Nat} {a b c : PrintJob}
    (h1 : JobEvol pt now a b) (h2 : JobEvol pt now b c) : JobEvol pt now a c := by
  rcases h1 with rfl | ⟨hst, hpt, hb⟩
  · exact h2
  · have hbqueued : b.status ≠ Status.queued := by
      rcases hb with rfl | ⟨err, rfl⟩
      · simp [startJob]
      · simp [failJob]
    rcases h2 with rfl | ⟨hst2, _, _⟩
    · exact Or.inr ⟨hst, hpt, hb⟩
    · exact (hbqueued hst2).elim

theorem forall₂_map_self {α : Type} {R : α → α → Prop} {l : List α} {f : α → α}
    (h : ∀ x ∈ l, R x (f x)) : List.Forall₂ R l (l.map f) := by
  induction l with
  | nil => exact List.Forall₂.nil
  | cons a t ih =>
    exact List.Forall₂.cons (h a (List.mem_cons_self a t))
      (ih fun x hx => h x (List.mem_cons_of_mem _ hx))

theorem forall₂_chain {α : Type} {R : α → α → Prop}
    (htrans : ∀ a b c, R a b → R b c → R a c) :
    ∀ {l1 l2 l3 : List α}, List.Forall₂ R l1 l2 → List.Forall₂ R l2 l3 →
      List.Forall₂ R l1 l3 := by
  intro l1 l2 l3 h12
  induction h12 generalizing l3 with
  | nil =>
    intro h23
    cases h23
    exact List.Forall₂.nil
  | cons hab h12t ih =>
    intro h23
    cases h23 with
    | cons hbc h23t => exact List.Forall₂.cons (htrans _ _ _ hab hbc) (ih h23t)

/-- Distinct rows of an id-`Nodup` table have distinct primary keys. -/
theorem mem_id_inj {l : List PrintJob} (hnd : (l.map (fun j => j.id)).Nodup)
    {a b : PrintJob} (ha : a ∈ l) (hb : b ∈ l) (h : a.id = b.id) : a = b := by
  induction l with
  | nil => cases ha
  | cons x t ih =>
    rw [List.map_cons, List.nodup_cons] at hnd
    rcases List.mem_cons.mp ha with rfl | hat <;> rcases List.mem_cons.mp hb with rfl | hbt
    · rfl
    · have hmem : b.id ∈ t.map (fun j => j.id) := List.mem_map_of_mem (fun j => j.id) hbt
      rw [← h] at hmem
      exact absurd hmem hnd.1
    · have hmem : a.id ∈ t.map (fun j => j.id) := List.mem_map_of_mem (fun j => j.id) hat
      rw [h] at hmem
      exact absurd hmem hnd.1
    · exact ih hnd.2 hat hbt

theorem countP_le_one_of_unique {α : Type} {l : List α} {p : α → Bool} {u : α}
    (hnd : l.Nodup) (h : ∀ x ∈ l, p x = true → x = u) : l.countP p ≤ 1 := by
  induction l with
  | nil => simp
  | cons a t ih =>
    rw [List.nodup_cons] at hnd
    simp only [List.countP_cons]
    by_cases hpa : p a = true
    · have ha := h a (List.mem_cons_self a t) hpa
      have h0 : t.countP p = 0 := by
        rw [List.countP_eq_zero]
        intro x hx hpx
        have hxu := h x (List.mem_cons_of_mem _ hx) hpx
        exact hnd.1 (ha ▸ hxu ▸ hx)
      simp [hpa, h0]
    · have hpa2 : p a = false := by simpa using hpa
      simp only [hpa2]
      simpa using ih hnd.2 (fun x hx hpx => h x (List.mem_cons_of_mem _ hx) hpx)

theorem update_map_id (l : List PrintJob) (f : PrintJob → PrintJob)
    (hf : ∀ j, (f j).id = j.id) :
    (l.map f).map (fun j => j.id) = l.map (fun j => j.id) := by
  rw [List.map_map]
  apply List.map_congr_left
  intro j _
  exact hf j

theorem mark_printing_id (nid now : Nat) (j : PrintJob) :
    ((if j.id = nid then startJob now j else j).id) = j.id := by
  by_cases h : j.id = nid <;> simp [h, startJob]

theorem fail_start_id (nid now : Nat) (err : String) (j : PrintJob) :
    ((if j.id = nid then failJob now err (startJob now j) else j).id) = j.id := by
  by_cases h : j.id = nid <;> simp [h, startJob, failJob]

/-- Master analysis of one `dispatch_next_job` call on a table with distinct
primary keys: it never touches `nextId`, never adds, removes or re-keys
rows, rewrites each row only as `JobEvol` allows, preserves the
at-most-one-printing bound for its printer type, and never increases the
queued count for its printer type. -/
theorem dispatch_master (env : Env) (now : Nat) (pt : String) :
    ∀ n (s : Store), countQueued pt s = n → (s.jobs.map (fun j => j.id)).Nodup →
      (dispatch_next_job env now pt s).2.nextId = s.nextId ∧
      (dispatch_next_job env now pt s).2.jobs.map (fun j => j.id) =
        s.jobs.map (fun j => j.id) ∧
      List.Forall₂ (JobEvol pt now) s.jobs (dispatch_next_job env now pt s).2.jobs ∧
      (countActive pt s ≤ 1 → countActive pt (dispatch_next_job env now pt s).2 ≤ 1) ∧
      countQueued pt (dispatch_next_job env now pt s).2 ≤ countQueued pt s := by
  intro n
  induction n using Nat.strong_induction_on with
  | _ n ih =>
    intro s hn hnd
    cases ha : find_active pt s with
    | some a =>
      rw [dispatch_of_active ha]
      exact ⟨rfl, rfl, List.forall₂_same.mpr (fun x _ => JobEvol.refl pt now x),
        fun h => h, le_refl _⟩
    | none =>
      have hnone : ∀ x ∈ s.jobs, jobMatches pt Status.printing x = false := by
        intro x hx
        simpa using List.find?_eq_none.mp ha x hx
      cases hq : find_next_queued pt s with
      | none =>
        rw [dispatch_of_empty ha hq]
        exact ⟨rfl, rfl, List.forall₂_same.mpr (fun x _ => JobEvol.refl pt now x),
          fun h => h, le_refl _⟩
      | some j =>
        obtain ⟨hmem, hpt, hst⟩ := find_next_queued_spec hq
        cases hl : launch_print_command env (startJob now j) with
        | none =>
          rw [dispatch_of_success ha hq hl]
          refine ⟨rfl, ?_, ?_, ?_, ?_⟩
          · exact update_map_id s.jobs _ (mark_printing_id j.id now)
          · apply forall₂_map_self
            intro x hx
            by_cases hxid : x.id = j.id
            · have hxj : x = j := mem_id_inj hnd hx hmem hxid
              subst hxj
              exact Or.inr ⟨hst, hpt, Or.inl (by simp)⟩
            · exact Or.inl (by simp [hxid])
          · intro _
            show countActive pt { s with jobs := mark_printing j.id now s.jobs } ≤ 1
            rw [countActive, ← List.countP_eq_length_filter, mark_printing, List.countP_map]
            apply countP_le_one_of_unique (List.Nodup.of_map _ hnd)
            intro x hx hpx
            by_cases hxid : x.id = j.id
            · exact mem_id_inj hnd hx hmem hxid
            · exfalso
              simp only [Function.comp, hxid, if_false, ite_false] at hpx
              rw [hnone x hx] at hpx
              cases hpx
          · show countQueued pt { s with jobs := mark_printing j.id now s.jobs } ≤
              countQueued pt s
            rw [countQueued, countQueued, ← List.countP_eq_length_filter,
              ← List.countP_eq_length_filter, mark_printing, List.countP_map]
            apply countP_le_of_mono
            intro x hx hpx
            by_cases hxid : x.id = j.id
            · exfalso
              simp [Function.comp, hxid, jobMatches, startJob] at hpx
            · simpa [Function.comp, hxid] using hpx
        | some err =>
          rw [dispatch_of_fail ha hq hl]
          have hjobs2 : ({ s with
                jobs := mark_failed j.id now err (mark_printing j.id now s.jobs) } :
                Store).jobs =
              s.jobs.map
                (fun x => if x.id = j.id then failJob now err (startJob now x) else x) := by
            show mark_failed j.id now err (mark_printing j.id now s.jobs) = _
            exact mark_failed_mark_printing j.id now err s.jobs
          have hids2 : ({ s with
                jobs := mark_failed j.id now err (mark_printing j.id now s.jobs) } :
                Store).jobs.map (fun x => x.id) = s.jobs.map (fun x => x.id) := by
            rw [hjobs2]
            exact update_map_id s.jobs _ (fail_start_id j.id now err)
          have hnd2 : (({ s with
                jobs := mark_failed j.id now err (mark_printing j.id now s.jobs) } :
                Store).jobs.map (fun x => x.id)).Nodup := by
            rw [hids2]
            exact hnd
          have hlt : countQueued pt { s with
              jobs := mark_failed j.id now err (mark_printing j.id now s.jobs) } < n :=
            hn ▸ countQueued_fail_lt pt now err s hq
          obtain ⟨ih1, ih2, ih3, ih4, ih5⟩ := ih _ hlt _ rfl hnd2
          have hevol12 : List.Forall₂ (JobEvol pt now) s.jobs
              ({ s with jobs := mark_failed j.id now err (mark_printing j.id now s.jobs) } :
                Store).jobs := by
            rw [hjobs2]
            apply forall₂_map_self
            intro x hx
            by_cases hxid : x.id = j.id
            · have hxj : x = j := mem_id_inj hnd hx hmem hxid
              subst hxj
              exact Or.inr ⟨hst, hpt, Or.inr ⟨err, by simp⟩⟩
            · exact Or.inl (by simp [hxid])
          refine ⟨ih1, ?_, ?_, ?_, ?_⟩
          · rw [ih2]
            exact hids2
          · exact forall₂_chain (R := JobEvol pt now) (fun a b c h1 h2 => JobEvol.chain h1 h2)
              hevol12 ih3
          · intro _
            apply ih4
            have hz : countActive pt { s with
                jobs := mark_failed j.id now err (mark_printing j.id now s.jobs) } = 0 := by
              rw [countActive, ← List.countP_eq_length_filter, hjobs2, List.countP_map]
              rw [List.countP_eq_zero]
              intro x hx hpx
              by_cases hxid : x.id = j.id
              · simp [Function.comp, hxid, jobMatches, failJob] at hpx
              · simp only [Function.comp, hxid, ite_false] at hpx
                rw [hnone x hx] at hpx
                cases hpx
            omega
          · exact le_trans ih5 (le_of_lt (countQueued_fail_lt pt now err s hq))

theorem countP_eq_of_forall₂ {α : Type} {R : α → α → Prop} {p : α → Bool} :
    ∀ {l l2 : List α}, List.Forall₂ R l l2 → (∀ a b, R a b → p b = p a) →
      l2.countP p = l.countP p := by
  intro l l2 h hcong
  induction h with
  | nil => rfl
  | cons hab ht ih => simp only [List.countP_cons, ih, hcong _ _ hab]

/-- A dispatch pass for printer type `pt` cannot change how a row matches a
query for a different printer type. -/
theorem jobEvol_matches_other {pt : String} {now : Nat} {pt2 : String} {st : Status}
    (hne : pt2 ≠ pt) {a b : PrintJob} (h : JobEvol pt now a b) :
    jobMatches pt2 st b = jobMatches pt2 st a := by
  rcases h with rfl | ⟨hst, hpt, hb⟩
  · rfl
  · rcases hb with rfl | ⟨err, rfl⟩ <;>
      simp [jobMatches, startJob, failJob, hpt, Ne.symm hne]

/-- Combined well-formedness invariant of the Job Store: primary keys are
below the auto-increment counter, pairwise distinct, and each printer type
has at most one `printing` row. -/
def StoreInv (s : Store) : Prop :=
  (∀ j ∈ s.jobs, j.id < s.nextId) ∧ (s.jobs.map (fun j => j.id)).Nodup ∧
    ∀ pt, countActive pt s ≤ 1

theorem storeInv_init : StoreInv Store.init := by
  refine ⟨?_, ?_, ?_⟩ <;> simp [Store.init, countActive]

theorem storeInv_dispatch (env : Env) (now : Nat) (pt : String) {s : Store}
    (h : StoreInv s) : StoreInv (dispatch_next_job env now pt s).2 := by
  obtain ⟨hb, hnd, hact⟩ := h
  obtain ⟨h1, h2, h3, h4, _⟩ := dispatch_master env now pt _ s rfl hnd
  refine ⟨?_, ?_, ?_⟩
  · intro j hj
    have hjm : j.id ∈ (dispatch_next_job env now pt s).2.jobs.map (fun x => x.id) :=
      List.mem_map_of_mem _ hj
    rw [h2] at hjm
    obtain ⟨k, hk, hke⟩ := List.mem_map.mp hjm
    rw [h1]
    exact hke ▸ hb k hk
  · rw [h2]
    exact hnd
  · intro pt2
    by_cases hpteq : pt2 = pt
    · subst hpteq
      exact h4 (hact pt2)
    · have he : countActive pt2 (dispatch_next_job env now pt s).2 = countActive pt2 s := by
        rw [countActive, countActive, ← List.countP_eq_length_filter,
          ← List.countP_eq_length_filter]
        exact countP_eq_of_forall₂ h3 (fun a b hab => jobEvol_matches_other hpteq hab)
      rw [he]
      exact hact pt2

theorem mark_done_manual_pointwise_id (jid now : Nat) (j : PrintJob) :
    ((if j.id = jid then { j with status := Status.done, completedAt := some now }
        else j).id) = j.id := by
  by_cases h : j.id = jid <;> simp [h]

theorem mark_failed_manual_pointwise_id (jid now : Nat) (j : PrintJob) :
    ((if j.id = jid then { j with status := Status.failed, completedAt := some now }
        else j).id) = j.id := by
  by_cases h : j.id = jid <;> simp [h]

/-- A keyed row update that never produces a `printing` row of type `pt2`
from a non-`printing` one keeps the per-type printing count bounded. -/
theorem countActive_le_of_update (pt2 : String) (l : List PrintJob)
    (f : PrintJob → PrintJob)
    (hf : ∀ x, jobMatches pt2 Status.printing (f x) = true →
      jobMatches pt2 Status.printing x = true) :
    ((l.map f).filter (jobMatches pt2 Status.printing)).length ≤
      (l.filter (jobMatches pt2 Status.printing)).length := by
  rw [← List.countP_eq_length_filter, ← List.countP_eq_length_filter, List.countP_map]
  exact countP_le_of_mono l _ _ (fun x _ hx => hf x hx)

theorem storeInv_complete (env : Env) (now jid : Nat) {s : Store} (h : StoreInv s) :
    StoreInv (complete_print_job env now jid s).2 := by
  rw [complete_print_job]
  cases hg : get_job jid s with
  | none => exact h
  | some job =>
    apply storeInv_dispatch
    obtain ⟨hb, hnd, hact⟩ := h
    refine ⟨?_, ?_, ?_⟩
    · intro j hj
      show j.id < s.nextId
      have hjm : j.id ∈ (mark_done_manual jid now s.jobs).map (fun x => x.id) :=
        List.mem_map_of_mem _ hj
      rw [mark_done_manual, update_map_id s.jobs _ (mark_done_manual_pointwise_id jid now)]
        at hjm
      obtain ⟨k, hk, hke⟩ := List.mem_map.mp hjm
      exact hke ▸ hb k hk
    · show ((mark_done_manual jid now s.jobs).map (fun x => x.id)).Nodup
      rw [mark_done_manual, update_map_id s.jobs _ (mark_done_manual_pointwise_id jid now)]
      exact hnd
    · intro pt2
      refine le_trans ?_ (hact pt2)
      show ((mark_done_manual jid now s.jobs).filter (jobMatches pt2 Status.printing)).length ≤
        countActive pt2 s
      rw [mark_done_manual]
      apply countActive_le_of_update
      intro x hx
      by_cases hxid : x.id = jid
      · simp [hxid, jobMatches] at hx
      · simpa [hxid] using hx

theorem storeInv_fail (env : Env) (now jid : Nat) {s : Store} (h : StoreInv s) :
    StoreInv (fail_print_job env now jid s).2 := by
  rw [fail_print_job]
  cases hg : get_job jid s with
  | none => exact h
  | some job =>
    apply storeInv_dispatch
    obtain ⟨hb, hnd, hact⟩ := h
    refine ⟨?_, ?_, ?_⟩
    · intro j hj
      show j.id < s.nextId
      have hjm : j.id ∈ (mark_failed_manual jid now s.jobs).map (fun x => x.id) :=
        List.mem_map_of_mem _ hj
      rw [mark_failed_manual,
        update_map_id s.jobs _ (mark_failed_manual_pointwise_id jid now)] at hjm
      obtain ⟨k, hk, hke⟩ := List.mem_map.mp hjm
      exact hke ▸ hb k hk
    · show ((mark_failed_manual jid now s.jobs).map (fun x => x.id)).Nodup
      rw [mark_failed_manual,
        update_map_id s.jobs _ (mark_failed_manual_pointwise_id jid now)]
      exact hnd
    · intro pt2
      refine le_trans ?_ (hact pt2)
      show ((mark_failed_manual jid now s.jobs).filter
          (jobMatches pt2 Status.printing)).length ≤ countActive pt2 s
      rw [mark_failed_manual]
      apply countActive_le_of_update
      intro x hx
      by_cases hxid : x.id = jid
      · simp [hxid, jobMatches] at hx
      · simpa [hxid] using hx

theorem storeInv_delete (env : Env) (now : Nat) (fo : FileOutcome) (jid : Nat) {s : Store}
    (h : StoreInv s) : StoreInv (api_delete_print_job env now fo jid s).2 := by
  rw [api_delete_print_job]
  cases hg : get_job jid s with
  | none => exact h
  | some job =>
    show StoreInv (if job.status = Status.printing then
        (some "Cannot delete an active printing job. Mark it done or failed first.", s)
      else
        (none, (delete_print_job_with_file env now fo job s).2)).2
    by_cases hp : job.status = Status.printing
    · rw [if_pos hp]
      exact h
    · rw [if_neg hp]
      show StoreInv (delete_print_job_with_file env now fo job s).2
      have hdel : (delete_print_job_with_file env now fo job s).2 =
          (dispatch_next_job env now job.printerType
            { s with jobs := s.jobs.filter (fun k => decide (k.id ≠ job.id)) }).2 := rfl
      rw [hdel]
      apply storeInv_dispatch
      obtain ⟨hb, hnd, hact⟩ := h
      have hsub : (s.jobs.filter (fun k => decide (k.id ≠ job.id))).Sublist s.jobs :=
        List.filter_sublist s.jobs
      refine ⟨?_, ?_, ?_⟩
      · intro j hj
        exact hb j (hsub.mem hj)
      · exact (hsub.map (fun x => x.id)).nodup hnd
      · intro pt2
        refine le_trans ?_ (hact pt2)
        show ((s.jobs.filter (fun k => decide (k.id ≠ job.id))).filter
            (jobMatches pt2 Status.printing)).length ≤ countActive pt2 s
        rw [countActive, ← List.countP_eq_length_filter, ← List.countP_eq_length_filter]
        exact hsub.countP_le _

theorem storeInv_submit (env : Env) (now m : Nat) (pt fn fp : String) (notes : Option String)
    {s : Store} (h : StoreInv s) : StoreInv (submit_print_job env now m pt fn fp notes s).2 := by
  rw [submit_print_job]
  split
  · exact h
  split
  · exact h
  split
  · exact h
  apply storeInv_dispatch
  obtain ⟨hb, hnd, hact⟩ := h
  refine ⟨?_, ?_, ?_⟩
  · intro j hj
    rcases List.mem_append.mp hj with hj1 | hj2
    · exact Nat.lt_succ_of_lt (hb j hj1)
    · rcases List.mem_singleton.mp hj2 with rfl
      exact Nat.lt_succ_self _
  · rw [List.map_append]
    rw [List.nodup_append]
    refine ⟨hnd, List.nodup_singleton _, ?_⟩
    intro x hx
    obtain ⟨k, hk, hke⟩ := List.mem_map.mp hx
    simp only [List.map_cons, List.map_nil]
    intro hmem
    rcases List.mem_singleton.mp hmem with rfl
    exact absurd (hke ▸ hb k hk) (lt_irrefl _)
  · intro pt2
    refine le_trans ?_ (hact pt2)
    show ((s.jobs ++ [_]).filter (jobMatches pt2 Status.printing)).length ≤ countActive pt2 s
    rw [List.filter_append]
    simp [jobMatches, countActive]

theorem storeInv_applyOp {s : Store} (op : Op) (h : StoreInv s) : StoreInv (applyOp s op) := by
  cases op with
  | submit env now m pt fn fp notes => exact storeInv_submit env now m pt fn fp notes h
  | complete env now jid => exact storeInv_complete env now jid h
  | fail env now jid => exact storeInv_fail env now jid h
  | delete env now fo jid => exact storeInv_delete env now fo jid h
  | dispatch env now pt => exact storeInv_dispatch env now pt h

/-- Every state reachable by sequential requests is well formed. -/
theorem storeInv_reachable {s : Store} (h : Reachable s) : StoreInv s := by
  induction h with
  | init => exact storeInv_init
  | step op _ ih => exact storeInv_applyOp op ih

theorem countP_congr_mem {α : Type} {l : List α} {p q : α → Bool}
    (h : ∀ x ∈ l, p x = q x) : l.countP p = l.countP q := by
  induction l with
  | nil => rfl
  | cons a t ih =>
    simp only [List.countP_cons, h a (List.mem_cons_self a t),
      ih (fun x hx => h x (List.mem_cons_of_mem _ hx))]

/-- Turning the predicate off at exactly one (`Nodup`-unique) member lowers
the count by exactly one. -/
theorem countP_succ_of_unique_off {α : Type} {l : List α} {p q : α → Bool} {u : α}
    (hnd : l.Nodup) (hu : u ∈ l) (hqu : q u = true) (hpu : p u = false)
    (hsame : ∀ x ∈ l, x ≠ u → p x = q x) :
    l.countP p + 1 = l.countP q := by
  induction l with
  | nil => cases hu
  | cons a t ih =>
    rw [List.nodup_cons] at hnd
    simp only [List.countP_cons]
    rcases List.mem_cons.mp hu with rfl | hut
    · have ht : t.countP p = t.countP q := by
        apply countP_congr_mem
        intro x hx
        exact hsame x (List.mem_cons_of_mem _ hx) (fun he => hnd.1 (he ▸ hx))
      simp [hpu, hqu, ht]
    · have ha2 : a ≠ u := fun he => hnd.1 (he ▸ hut)
      rw [hsame a (List.mem_cons_self a t) ha2]
      have hrec := ih hnd.2 hut (fun x hx hxu => hsame x (List.mem_cons_of_mem _ hx) hxu)
      by_cases hqa : q a = true
      · simp [hqa]
        omega
      · have hqa2 : q a = false := by simpa using hqa
        simp [hqa2]
        omega

theorem launch_of_getEnv_none {env : Env} {job : PrintJob}
    (h : env.getEnv ("ASME_" ++ job.printerType ++ "_PRINT_CMD") = none) :
    launch_print_command env job =
      some ("ASME_" ++ job.printerType ++ "_PRINT_CMD" ++
        " is not configured. Add it to print_commands.env and restart the app.") := by
  rw [launch_print_command]
  split
  · rfl
  · rename_i ct hct
    rw [h] at hct
    cases hct

theorem launch_of_getEnv_empty {env : Env} {job : PrintJob}
    (h : env.getEnv ("ASME_" ++ job.printerType ++ "_PRINT_CMD") = some "") :
    launch_print_command env job =
      some ("ASME_" ++ job.printerType ++ "_PRINT_CMD" ++
        " is not configured. Add it to print_commands.env and restart the app.") := by
  rw [launch_print_command]
  split
  · rename_i hct
    rw [h] at hct
  · rename_i ct hct
    rw [h] at hct
    cases hct
    rfl

theorem launch_of_getEnv_some {env : Env} {job : PrintJob} {t : String}
    (h : env.getEnv ("ASME_" ++ job.printerType ++ "_PRINT_CMD") = some t) (ht : t ≠ "") :
    launch_print_command env job =
      (if (env.run (print_command t job)).returncode = 0 then none
       else
         some ("ASME_" ++ job.printerType ++ "_PRINT_CMD" ++ " failed: " ++
           py_slice ((str_or (env.run (print_command t job)).stderr
             (str_or (env.run (print_command t job)).stdout "print command failed")).trim)
               300)) := by
  rw [launch_print_command]
  split
  · rename_i hct
    rw [h] at hct
    cases hct
  · rename_i ct hct
    rw [h] at hct
    cases hct
    rw [if_neg ht]

/-- Claim C1: at every state reachable from the empty store by sequential
submit, complete, fail, delete and dispatch requests, at most one job per
printer type has the active ("printing") status; and whenever a job of the
requested printer type is already printing, `dispatch_next_job` returns
`none` and leaves the store untouched, promoting nothing. -/
theorem claim_C1 {s : Store} (h : Reachable s) :
    (∀ pt, countActive pt s ≤ 1) ∧
      (∀ (env : Env) (now : Nat) (pt : String) (a : PrintJob),
        find_active pt s = some a → dispatch_next_job env now pt s = (none, s)) :=
  ⟨(storeInv_reachable h).2.2, fun _ _ _ _ ha => dispatch_of_active ha⟩

/-- Witness for C1 at the concrete reachable state `Store.init`. -/
theorem claim_C1_witness :
    (∀ pt, countActive pt Store.init ≤ 1) ∧
      (∀ (env : Env) (now : Nat) (pt : String) (a : PrintJob),
        find_active pt Store.init = some a →
          dispatch_next_job env now pt Store.init = (none, Store.init)) :=
  claim_C1 Reachable.init

/-- Claim C7: on a printer type with no queued job and no active job,
`dispatch_next_job` is a no-op returning `none`; iterating it any number of
times leaves the job store unchanged (and, returning `(none, s)` for every
environment, it invokes no launcher). -/
theorem claim_C7 (env : Env) (now : Nat) (pt : String) {s : Store}
    (ha : find_active pt s = none) (hq : find_next_queued pt s = none) :
    dispatch_next_job env now pt s = (none, s) ∧
      ∀ n, (fun t => (dispatch_next_job env now pt t).2)^[n] s = s := by
  have h1 : dispatch_next_job env now pt s = (none, s) := dispatch_of_empty ha hq
  refine ⟨h1, ?_⟩
  intro n
  induction n with
  | zero => rfl
  | succ k ihk =>
    rw [Function.iterate_succ_apply]
    have h2 : (dispatch_next_job env now pt s).2 = s := by rw [h1]
    simpa [h2] using ihk

/-- Witness for C7: the empty store with a trivial environment. -/
theorem claim_C7_witness :
    dispatch_next_job ⟨fun _ => none, fun _ => ⟨0, "", ""⟩⟩ 0 "H2S" Store.init =
        (none, Store.init) ∧
      ∀ n, (fun t =>
        (dispatch_next_job ⟨fun _ => none, fun _ => ⟨0, "", ""⟩⟩ 0 "H2S" t).2)^[n] Store.init =
          Store.init :=
  claim_C7 ⟨fun _ => none, fun _ => ⟨0, "", ""⟩⟩ 0 "H2S" (by rfl) (by rfl)

/-- Claim C5: the Command Launcher returns a configuration failure without
consulting the process runner when no (or an empty) command template is
configured for the job's printer type; with a template configured it runs
the substituted command and succeeds exactly when the exit status is 0,
otherwise failing with a diagnostic drawn from stderr (falling back to
stdout, then a fixed message), trimmed and truncated to at most 300
characters.  It is a total function: no input raises. -/
theorem claim_C5 (g : String → Option String) (r r2 : String → ProcResult) (job : PrintJob)
    (t : String) :
    ((g ("ASME_" ++ job.printerType ++ "_PRINT_CMD") = none ∨
        g ("ASME_" ++ job.printerType ++ "_PRINT_CMD") = some "") →
      launch_print_command ⟨g, r⟩ job =
          some ("ASME_" ++ job.printerType ++ "_PRINT_CMD" ++
            " is not configured. Add it to print_commands.env and restart the app.") ∧
        launch_print_command ⟨g, r⟩ job = launch_print_command ⟨g, r2⟩ job) ∧
    (g ("ASME_" ++ job.printerType ++ "_PRINT_CMD") = some t → t ≠ "" →
      (launch_print_command ⟨g, r⟩ job = none ↔
        (r (print_command t job)).returncode = 0) ∧
      ((r (print_command t job)).returncode ≠ 0 →
        launch_print_command ⟨g, r⟩ job =
            some ("ASME_" ++ job.printerType ++ "_PRINT_CMD" ++ " failed: " ++
              py_slice ((str_or (r (print_command t job)).stderr
                (str_or (r (print_command t job)).stdout "print command failed")).trim) 300) ∧
          (py_slice ((str_or (r (print_command t job)).stderr
            (str_or (r (print_command t job)).stdout "print command failed")).trim)
              300).length ≤ 300)) := by
  constructor
  · intro hmiss
    rcases hmiss with hnone | hempty
    · rw [launch_of_getEnv_none hnone, launch_of_getEnv_none hnone]
      exact ⟨rfl, rfl⟩
    · rw [launch_of_getEnv_empty hempty, launch_of_getEnv_empty hempty]
      exact ⟨rfl, rfl⟩
  · intro ht htne
    have hshape : launch_print_command ⟨g, r⟩ job =
        (if (r (print_command t job)).returncode = 0 then none
         else
           some ("ASME_" ++ job.printerType ++ "_PRINT_CMD" ++ " failed: " ++
             py_slice ((str_or (r (print_command t job)).stderr
               (str_or (r (print_command t job)).stdout "print command failed")).trim) 300)) :=
      launch_of_getEnv_some ht htne
    constructor
    · rw [hshape]
      constructor
      · intro hz
        by_contra hnz
        rw [if_neg hnz] at hz
        cases hz
      · intro hz
        rw [if_pos hz]
    · intro hnz
      constructor
      · rw [hshape, if_neg hnz]
      · show (((str_or (r (print_command t job)).stderr
            (str_or (r (print_command t job)).stdout
              "print command failed")).trim).data.take 300).length ≤ 300
        rw [List.length_take]
        exact min_le_left _ _

/-- Claim C6: the dispatcher's failure self-call terminates on every finite
store: a call that promotes a queued job whose launch fails moves exactly
that one queued job of the printer type into the terminal failed state
before recursing, so the queued count strictly decreases by exactly one; a
call finding no active job and an empty queue returns `none` without
recursing; and no call ever increases the queued count — the recursion is
bounded by queue exhaustion. -/
theorem claim_C6 (env : Env) (now : Nat) (pt : String) {s : Store} {j : PrintJob}
    {err : String} (hnd : (s.jobs.map (fun x => x.id)).Nodup)
    (ha : find_active pt s = none) (hq : find_next_queued pt s = some j)
    (hl : launch_print_command env (startJob now j) = some err) :
    dispatch_next_job env now pt s =
        dispatch_next_job env now pt
          { s with jobs := mark_failed j.id now err (mark_printing j.id now s.jobs) } ∧
      countQueued pt
            { s with jobs := mark_failed j.id now err (mark_printing j.id now s.jobs) } + 1 =
        countQueued pt s ∧
      (∀ s2 : Store, find_active pt s2 = none → find_next_queued pt s2 = none →
        dispatch_next_job env now pt s2 = (none, s2)) ∧
      countQueued pt (dispatch_next_job env now pt s).2 ≤ countQueued pt s := by
  obtain ⟨hmem, hpt, hst⟩ := find_next_queued_spec hq
  refine ⟨dispatch_of_fail ha hq hl, ?_, fun s2 h1 h2 => dispatch_of_empty h1 h2, ?_⟩
  · rw [countQueued, countQueued, mark_failed_mark_printing,
      ← List.countP_eq_length_filter, ← List.countP_eq_length_filter, List.countP_map]
    refine countP_succ_of_unique_off (List.Nodup.of_map _ hnd) hmem ?_ ?_ ?_
    · simp [jobMatches, hpt, hst]
    · simp [Function.comp, jobMatches, failJob]
    · intro x hx hxne
      by_cases hxid : x.id = j.id
      · exact absurd (mem_id_inj hnd hx hmem hxid) hxne
      · simp [Function.comp, hxid]
  · exact (dispatch_master env now pt _ s rfl hnd).2.2.2.2

/-- Fixture: an environment with no command template configured and a
runner that always succeeds (never consulted when no template exists). -/
def envNoTemplate : Env := ⟨fun _ => none, fun _ => ⟨0, "", ""⟩⟩

/-- Fixture: a queued H2S job with primary key 1. -/
def wjob1 : PrintJob :=
  { id := 1, memberId := 1, printerType := "H2S", fileName := "a.gcode",
    filePath := "up/a.gcode", notes := none, status := Status.queued,
    submittedAt := 0, startedAt := none, completedAt := none }

/-- Fixture: a store holding only `wjob1`. -/
def wstore1 : Store := { jobs := [wjob1], nextId := 2 }

/-- Fixture: the configuration-error diagnostic for the H2S printer. -/
def werr1 : String :=
  "ASME_" ++ "H2S" ++ "_PRINT_CMD" ++
    " is not configured. Add it to print_commands.env and restart the app."

/-- Witness for C6: a single queued H2S job with no command template
configured, so its launch fails. -/
theorem claim_C6_witness :
    dispatch_next_job envNoTemplate 5 "H2S" wstore1 =
        dispatch_next_job envNoTemplate 5 "H2S"
          { wstore1 with
            jobs := mark_failed wjob1.id 5 werr1 (mark_printing wjob1.id 5 wstore1.jobs) } ∧
      countQueued "H2S"
            { wstore1 with
              jobs := mark_failed wjob1.id 5 werr1 (mark_printing wjob1.id 5 wstore1.jobs) } + 1 =
        countQueued "H2S" wstore1 ∧
      (∀ s2 : Store, find_active "H2S" s2 = none → find_next_queued "H2S" s2 = none →
        dispatch_next_job envNoTemplate 5 "H2S" s2 = (none, s2)) ∧
      countQueued "H2S" (dispatch_next_job envNoTemplate 5 "H2S" wstore1).2 ≤
        countQueued "H2S" wstore1 :=
  claim_C6 envNoTemplate 5 "H2S" (by decide) (by rfl) (by rfl) (by rfl)

theorem keyLt_irrefl (a : PrintJob) : keyLt a a = false := by
  simp [keyLt]

theorem keyLt_asymm {a b : PrintJob} (h : keyLt a b = true) : keyLt b a = false := by
  simp only [keyLt, decide_eq_true_eq, decide_eq_false_iff_not] at *
  omega

theorem keyLt_false_trans {x m a : PrintJob} (h1 : keyLt x m = false)
    (h2 : keyLt m a = false) : keyLt x a = false := by
  simp only [keyLt, decide_eq_false_iff_not] at *
  omega

theorem keyLt_true_of_false_of_ne {k j : PrintJob} (h : keyLt k j = false)
    (hne : k.id ≠ j.id) : keyLt j k = true := by
  simp only [keyLt, decide_eq_false_iff_not, decide_eq_true_eq] at *
  omega

/-- The row returned by the leftmost-minimum scan is minimal: no member of
the list is strictly below it in `(submitted_at, id)` order. -/
theorem first_by_min_keyLt :
    ∀ {l : List PrintJob} {j : PrintJob}, first_by keyLt l = some j →
      ∀ x ∈ l, keyLt x j = false := by
  intro l
  induction l with
  | nil => intro j h x hx; cases hx
  | cons a t ih =>
    intro j h x hx
    unfold first_by at h
    split at h
    · rename_i hm
      cases h
      have ht : t = [] := first_by_eq_none.mp hm
      subst ht
      rcases List.mem_cons.mp hx with rfl | hxt
      · exact keyLt_irrefl x
      · cases hxt
    · rename_i m hm
      split at h
      · rename_i hlt
        cases h
        rcases List.mem_cons.mp hx with rfl | hxt
        · exact keyLt_asymm hlt
        · exact ih hm x hxt
      · rename_i hlt
        cases h
        rcases List.mem_cons.mp hx with rfl | hxt
        · exact keyLt_irrefl x
        · have h1 := ih hm x hxt
          have h2 : keyLt m a = false := by
            cases hkm : keyLt m a
            · rfl
            · exact absurd hkm hlt
          exact keyLt_false_trans h1 h2

theorem forall₂_mem_left {α β : Type} {R : α → β → Prop} :
    ∀ {l : List α} {l2 : List β}, List.Forall₂ R l l2 → ∀ x ∈ l, ∃ y ∈ l2, R x y := by
  intro l l2 h
  induction h with
  | nil => intro x hx; cases hx
  | cons hab ht ih =>
    intro x hx
    rcases List.mem_cons.mp hx with rfl | hxt
    · exact ⟨_, List.mem_cons_self _ _, hab⟩
    · obtain ⟨y, hy, hxy⟩ := ih x hxt
      exact ⟨y, List.mem_cons_of_mem _ hy, hxy⟩

/-- Claim C4: with no active job of the printer type, the dispatcher
promotes exactly the queued job that is minimal in ascending
`(submitted_at, id)` order — it strictly precedes every other queued job of
the type — and that job is the one promoted: on launcher success it is
returned as the new active job, and in every case the store resulting from
the dispatch holds that job's row promoted (started_at stamped, no longer
queued) while any queued job submitted later is promoted no earlier. -/
theorem claim_C4 (env : Env) (now : Nat) (pt : String) {s : Store} {j : PrintJob}
    (hnd : (s.jobs.map (fun x => x.id)).Nodup)
    (ha : find_active pt s = none) (hq : find_next_queued pt s = some j) :
    (j ∈ s.jobs ∧ j.status = Status.queued ∧ j.printerType = pt) ∧
      (∀ k ∈ s.jobs, k.printerType = pt → k.status = Status.queued → k ≠ j →
        keyLt j k = true) ∧
      (launch_print_command env (startJob now j) = none →
        dispatch_next_job env now pt s =
          (some (startJob now j), { s with jobs := mark_printing j.id now s.jobs })) ∧
      (∃ k ∈ (dispatch_next_job env now pt s).2.jobs,
        k.id = j.id ∧ k.startedAt = some now ∧ k.status ≠ Status.queued) := by
  obtain ⟨hmem, hpt, hst⟩ := find_next_queued_spec hq
  refine ⟨⟨hmem, hst, hpt⟩, ?_, fun hl => dispatch_of_success ha hq hl, ?_⟩
  · intro k hk hkpt hkst hkne
    have hkf : k ∈ s.jobs.filter (jobMatches pt Status.queued) :=
      List.mem_filter.mpr ⟨hk, by simp [jobMatches, hkpt, hkst]⟩
    have hfalse : keyLt k j = false := first_by_min_keyLt hq k hkf
    have hidne : k.id ≠ j.id := fun hide => hkne (mem_id_inj hnd hk hmem hide)
    exact keyLt_true_of_false_of_ne hfalse hidne
  · cases hl : launch_print_command env (startJob now j) with
    | none =>
      rw [dispatch_of_success ha hq hl]
      refine ⟨startJob now j, ?_, rfl, rfl, by simp [startJob]⟩
      show startJob now j ∈ mark_printing j.id now s.jobs
      rw [mark_printing]
      have : startJob now j = (fun x => if x.id = j.id then startJob now x else x) j := by simp
      rw [this]
      exact List.mem_map_of_mem _ hmem
    | some err =>
      rw [dispatch_of_fail ha hq hl]
      have hjobs2 : ({ s with
            jobs := mark_failed j.id now err (mark_printing j.id now s.jobs) } : Store).jobs =
          s.jobs.map
            (fun x => if x.id = j.id then failJob now err (startJob now x) else x) := by
        show mark_failed j.id now err (mark_printing j.id now s.jobs) = _
        exact mark_failed_mark_printing j.id now err s.jobs
      have hids2 : (({ s with
            jobs := mark_failed j.id now err (mark_printing j.id now s.jobs) } :
            Store).jobs.map (fun x => x.id)).Nodup := by
        rw [hjobs2, update_map_id s.jobs _ (fail_start_id j.id now err)]
        exact hnd
      have hmem2 : failJob now err (startJob now j) ∈
          ({ s with
            jobs := mark_failed j.id now err (mark_printing j.id now s.jobs) } : Store).jobs := by
        rw [hjobs2]
        have : failJob now err (startJob now j) =
            (fun x => if x.id = j.id then failJob now err (startJob now x) else x) j := by simp
        rw [this]
        exact List.mem_map_of_mem _ hmem
      obtain ⟨_, _, hevol, _, _⟩ := dispatch_master env now pt _ _ rfl hids2
      obtain ⟨y, hy, hxy⟩ := forall₂_mem_left hevol _ hmem2
      rcases hxy with hyx | ⟨hst2, _, _⟩
      · refine ⟨y, hy, ?_, ?_, ?_⟩ <;> rw [hyx] <;> simp [failJob, startJob]
      · simp [failJob] at hst2

/-- Witness for C4: the single queued H2S job of `wstore1`. -/
theorem claim_C4_witness :
    (wjob1 ∈ wstore1.jobs ∧ wjob1.status = Status.queued ∧ wjob1.printerType = "H2S") ∧
      (∀ k ∈ wstore1.jobs, k.printerType = "H2S" → k.status = Status.queued → k ≠ wjob1 →
        keyLt wjob1 k = true) ∧
      (launch_print_command envNoTemplate (startJob 5 wjob1) = none →
        dispatch_next_job envNoTemplate 5 "H2S" wstore1 =
          (some (startJob 5 wjob1),
            { wstore1 with jobs := mark_printing wjob1.id 5 wstore1.jobs })) ∧
      (∃ k ∈ (dispatch_next_job envNoTemplate 5 "H2S" wstore1).2.jobs,
        k.id = wjob1.id ∧ k.startedAt = some 5 ∧ k.status ≠ Status.queued) :=
  claim_C4 envNoTemplate 5 "H2S" (by decide) (by rfl) (by rfl)

/-- Claim C10: a single dispatch pass keeps the table's length; a row it
turns `failed` either was already `failed` or was the queued row it
promoted, in which case the result carries both `started_at = now` and
`completed_at = now`; and a row it leaves `printing` either was already
`printing` or is the promoted queued row with `started_at = now` — the
promotion commit is persisted whatever the launcher then reports. -/
theorem claim_C10 (env : Env) (now : Nat) (pt : String) {s : Store}
    (hnd : (s.jobs.map (fun x => x.id)).Nodup) :
    (dispatch_next_job env now pt s).2.jobs.length = s.jobs.length ∧
      ∀ i (h1 : i < s.jobs.length) (h2 : i < (dispatch_next_job env now pt s).2.jobs.length),
        (((dispatch_next_job env now pt s).2.jobs.get ⟨i, h2⟩).status = Status.failed →
          (s.jobs.get ⟨i, h1⟩).status = Status.failed ∨
            ((s.jobs.get ⟨i, h1⟩).status = Status.queued ∧
              ((dispatch_next_job env now pt s).2.jobs.get ⟨i, h2⟩).startedAt = some now ∧
              ((dispatch_next_job env now pt s).2.jobs.get ⟨i, h2⟩).completedAt = some now)) ∧
        (((dispatch_next_job env now pt s).2.jobs.get ⟨i, h2⟩).status = Status.printing →
          (s.jobs.get ⟨i, h1⟩).status = Status.printing ∨
            ((s.jobs.get ⟨i, h1⟩).status = Status.queued ∧
              ((dispatch_next_job env now pt s).2.jobs.get ⟨i, h2⟩).startedAt = some now)) := by
  obtain ⟨_, _, hevol, _, _⟩ := dispatch_master env now pt _ s rfl hnd
  obtain ⟨hlen, hget⟩ := List.forall₂_iff_get.mp hevol
  refine ⟨hlen.symm, ?_⟩
  intro i h1 h2
  have hR := hget i h1 h2
  constructor
  · intro hfail
    rcases hR with hyx | ⟨hqd, _, hca⟩
    · rw [hyx] at hfail
      exact Or.inl hfail
    · rcases hca with hstart | ⟨err, hfl⟩
      · rw [hstart] at hfail
        simp [startJob] at hfail
      · refine Or.inr ⟨hqd, ?_, ?_⟩ <;> rw [hfl] <;> simp [failJob, startJob]
  · intro hprint
    rcases hR with hyx | ⟨hqd, _, hca⟩
    · rw [hyx] at hprint
      exact Or.inl hprint
    · rcases hca with hstart | ⟨err, hfl⟩
      · refine Or.inr ⟨hqd, ?_⟩
        rw [hstart]
        rfl
      · rw [hfl] at hprint
        simp [failJob] at hprint

/-- Witness for C10: the one-job store `wstore1` under a template-free
environment. -/
theorem claim_C10_witness :
    (dispatch_next_job envNoTemplate 9 "H2S" wstore1).2.jobs.length =
        wstore1.jobs.length ∧
      ∀ i (h1 : i < wstore1.jobs.length)
        (h2 : i < (dispatch_next_job envNoTemplate 9 "H2S" wstore1).2.jobs.length),
        (((dispatch_next_job envNoTemplate 9 "H2S" wstore1).2.jobs.get ⟨i, h2⟩).status =
            Status.failed →
          (wstore1.jobs.get ⟨i, h1⟩).status = Status.failed ∨
            ((wstore1.jobs.get ⟨i, h1⟩).status = Status.queued ∧
              ((dispatch_next_job envNoTemplate 9 "H2S" wstore1).2.jobs.get
                ⟨i, h2⟩).startedAt = some 9 ∧
              ((dispatch_next_job envNoTemplate 9 "H2S" wstore1).2.jobs.get
                ⟨i, h2⟩).completedAt = some 9)) ∧
        (((dispatch_next_job envNoTemplate 9 "H2S" wstore1).2.jobs.get ⟨i, h2⟩).status =
            Status.printing →
          (wstore1.jobs.get ⟨i, h1⟩).status = Status.printing ∨
            ((wstore1.jobs.get ⟨i, h1⟩).status = Status.queued ∧
              ((dispatch_next_job envNoTemplate 9 "H2S" wstore1).2.jobs.get
                ⟨i, h2⟩).startedAt = some 9)) :=
  claim_C10 envNoTemplate 9 "H2S" (by decide)

/-! Branch equations of the manual handlers. -/

theorem complete_of_none {env : Env} {now jid : Nat} {s : Store}
    (h : get_job jid s = none) :
    complete_print_job env now jid s = (some "Print job not found.", s) := by
  rw [complete_print_job]
  split
  · rfl
  · rename_i job hjob
    rw [h] at hjob
    cases hjob

theorem complete_of_found {env : Env} {now jid : Nat} {s : Store} {job : PrintJob}
    (h : get_job jid s = some job) :
    complete_print_job env now jid s =
      (none, (dispatch_next_job env now job.printerType
        { s with jobs := mark_done_manual jid now s.jobs }).2) := by
  rw [complete_print_job]
  split
  · rename_i hjob
    rw [h] at hjob
    cases hjob
  · rename_i job2 hjob
    rw [h] at hjob
    cases hjob
    rfl

theorem fail_of_none {env : Env} {now jid : Nat} {s : Store}
    (h : get_job jid s = none) :
    fail_print_job env now jid s = (some "Print job not found.", s) := by
  rw [fail_print_job]
  split
  · rfl
  · rename_i job hjob
    rw [h] at hjob
    cases hjob

theorem fail_of_found {env : Env} {now jid : Nat} {s : Store} {job : PrintJob}
    (h : get_job jid s = some job) :
    fail_print_job env now jid s =
      (none, (dispatch_next_job env now job.printerType
        { s with jobs := mark_failed_manual jid now s.jobs }).2) := by
  rw [fail_print_job]
  split
  · rename_i hjob
    rw [h] at hjob
    cases hjob
  · rename_i job2 hjob
    rw [h] at hjob
    cases hjob
    rfl

theorem get_job_spec {jid : Nat} {s : Store} {job : PrintJob}
    (h : get_job jid s = some job) : job ∈ s.jobs ∧ job.id = jid := by
  refine ⟨List.mem_of_find?_eq_some h, ?_⟩
  have := List.find?_some h
  simpa using this

/-- Counterexample to claim C2 as stated: job 1 of `wstore1` is queued, not
active, yet the Complete handler is not rejected — it mutates the store
(and the Fail handler likewise), reporting success rather than an error. -/
theorem claim_C2_counterexample :
    wjob1.status ≠ Status.printing ∧
      ((complete_print_job envNoTemplate 7 1 wstore1).2 ≠ wstore1 ∧
        (complete_print_job envNoTemplate 7 1 wstore1).1 = none) ∧
      ((fail_print_job envNoTemplate 7 1 wstore1).2 ≠ wstore1 ∧
        (fail_print_job envNoTemplate 7 1 wstore1).1 = none) := by
  have hget : get_job 1 wstore1 = some wjob1 := by rfl
  have hc : complete_print_job envNoTemplate 7 1 wstore1 =
      (none, (dispatch_next_job envNoTemplate 7 wjob1.printerType
        { wstore1 with jobs := mark_done_manual 1 7 wstore1.jobs }).2) :=
    complete_of_found hget
  have hcd : dispatch_next_job envNoTemplate 7 wjob1.printerType
        { wstore1 with jobs := mark_done_manual 1 7 wstore1.jobs } =
      (none, { wstore1 with jobs := mark_done_manual 1 7 wstore1.jobs }) :=
    dispatch_of_empty (by rfl) (by rfl)
  have hf : fail_print_job envNoTemplate 7 1 wstore1 =
      (none, (dispatch_next_job envNoTemplate 7 wjob1.printerType
        { wstore1 with jobs := mark_failed_manual 1 7 wstore1.jobs }).2) :=
    fail_of_found hget
  have hfd : dispatch_next_job envNoTemplate 7 wjob1.printerType
        { wstore1 with jobs := mark_failed_manual 1 7 wstore1.jobs } =
      (none, { wstore1 with jobs := mark_failed_manual 1 7 wstore1.jobs }) :=
    dispatch_of_empty (by rfl) (by rfl)
  refine ⟨by decide, ⟨?_, ?_⟩, ⟨?_, ?_⟩⟩
  · rw [hc, hcd]
    decide
  · rw [hc]
  · rw [hf, hfd]
    decide
  · rw [hf]

/-- A row that is not queued when a dispatch pass starts survives the pass
untouched. -/
theorem dispatch_preserves_nonqueued (env : Env) (now : Nat) (pt : String) {s : Store}
    (hnd : (s.jobs.map (fun x => x.id)).Nodup) {x : PrintJob} (hx : x ∈ s.jobs)
    (hxs : x.status ≠ Status.queued) : x ∈ (dispatch_next_job env now pt s).2.jobs := by
  obtain ⟨_, _, hevol, _, _⟩ := dispatch_master env now pt _ s rfl hnd
  obtain ⟨y, hy, hxy⟩ := forall₂_mem_left hevol x hx
  rcases hxy with rfl | ⟨hq2, _, _⟩
  · exact hy
  · exact absurd hq2 hxs

/-- Claim C2 as amended (forced by the counterexample): the Complete and
Fail handlers validate only that the job id exists.  An unknown id is
rejected with an error and no mutation; for any found job — whatever its
current status, active or not — Complete commits it as `done` with
`completed_at` stamped and Fail commits it as `failed` with `completed_at`
stamped, the subsequent dispatch pass leaving the now-terminal row
untouched. -/
theorem claim_C2_amended (env : Env) (now jid : Nat) {s : Store}
    (hnd : (s.jobs.map (fun x => x.id)).Nodup) :
    (get_job jid s = none →
      complete_print_job env now jid s = (some "Print job not found.", s) ∧
        fail_print_job env now jid s = (some "Print job not found.", s)) ∧
      (∀ job : PrintJob, get_job jid s = some job →
        (∃ k ∈ (complete_print_job env now jid s).2.jobs,
          k.id = jid ∧ k.status = Status.done ∧ k.completedAt = some now) ∧
        (∃ k ∈ (fail_print_job env now jid s).2.jobs,
          k.id = jid ∧ k.status = Status.failed ∧ k.completedAt = some now)) := by
  constructor
  · intro h
    exact ⟨complete_of_none h, fail_of_none h⟩
  · intro job hj
    obtain ⟨hjm, hjid⟩ := get_job_spec hj
    constructor
    · rw [complete_of_found hj]
      have hk0 : ({ job with status := Status.done, completedAt := some now } : PrintJob) ∈
          mark_done_manual jid now s.jobs := by
        rw [mark_done_manual]
        have he : ({ job with status := Status.done, completedAt := some now } : PrintJob) =
            (fun j => if j.id = jid then
              { j with status := Status.done, completedAt := some now } else j) job := by
          simp [hjid]
        rw [he]
        exact List.mem_map_of_mem _ hjm
      have hnd1 : ((mark_done_manual jid now s.jobs).map (fun x => x.id)).Nodup := by
        rw [mark_done_manual, update_map_id s.jobs _ (mark_done_manual_pointwise_id jid now)]
        exact hnd
      have hpres := dispatch_preserves_nonqueued env now job.printerType
        (s := { s with jobs := mark_done_manual jid now s.jobs }) hnd1 hk0 (by simp)
      exact ⟨_, hpres, by simp [hjid], by simp, by simp⟩
    · rw [fail_of_found hj]
      have hk0 : ({ job with status := Status.failed, completedAt := some now } : PrintJob) ∈
          mark_failed_manual jid now s.jobs := by
        rw [mark_failed_manual]
        have he : ({ job with status := Status.failed, completedAt := some now } : PrintJob) =
            (fun j => if j.id = jid then
              { j with status := Status.failed, completedAt := some now } else j) job := by
          simp [hjid]
        rw [he]
        exact List.mem_map_of_mem _ hjm
      have hnd1 : ((mark_failed_manual jid now s.jobs).map (fun x => x.id)).Nodup := by
        rw [mark_failed_manual,
          update_map_id s.jobs _ (mark_failed_manual_pointwise_id jid now)]
        exact hnd
      have hpres := dispatch_preserves_nonqueued env now job.printerType
        (s := { s with jobs := mark_failed_manual jid now s.jobs }) hnd1 hk0 (by simp)
      exact ⟨_, hpres, by simp [hjid], by simp, by simp⟩

/-- Witness for the amended C2 at the queued (non-active) job of
`wstore1`. -/
theorem claim_C2_witness :
    (get_job 1 wstore1 = none →
      complete_print_job envNoTemplate 7 1 wstore1 = (some "Print job not found.", wstore1) ∧
        fail_print_job envNoTemplate 7 1 wstore1 = (some "Print job not found.", wstore1)) ∧
      (∀ job : PrintJob, get_job 1 wstore1 = some job →
        (∃ k ∈ (complete_print_job envNoTemplate 7 1 wstore1).2.jobs,
          k.id = 1 ∧ k.status = Status.done ∧ k.completedAt = some 7) ∧
        (∃ k ∈ (fail_print_job envNoTemplate 7 1 wstore1).2.jobs,
          k.id = 1 ∧ k.status = Status.failed ∧ k.completedAt = some 7)) :=
  claim_C2_amended envNoTemplate 7 1 (by decide)

theorem delete_of_printing {env : Env} {now : Nat} {fo : FileOutcome} {jid : Nat} {s : Store}
    {job : PrintJob} (h : get_job jid s = some job) (hp : job.status = Status.printing) :
    api_delete_print_job env now fo jid s =
      (some "Cannot delete an active printing job. Mark it done or failed first.", s) := by
  rw [api_delete_print_job]
  split
  · rename_i hjob
    rw [h] at hjob
    cases hjob
  · rename_i job2 hjob
    rw [h] at hjob
    cases hjob
    rw [if_pos hp]

theorem delete_of_found {env : Env} {now : Nat} {fo : FileOutcome} {jid : Nat} {s : Store}
    {job : PrintJob} (h : get_job jid s = some job) (hp : job.status ≠ Status.printing) :
    api_delete_print_job env now fo jid s =
      (none, (dispatch_next_job env now job.printerType
        { s with jobs := s.jobs.filter (fun k => decide (k.id ≠ job.id)) }).2) := by
  rw [api_delete_print_job]
  split
  · rename_i hjob
    rw [h] at hjob
    cases hjob
  · rename_i job2 hjob
    rw [h] at hjob
    cases hjob
    rw [if_neg hp]
    rfl

/-- Claim C8: deleting an active ("printing") job is rejected with an error
and leaves all state unchanged; deleting a found job in any other status
removes its record from the store even when the payload-file removal errors
— the file outcome is reported in the handler's result but never influences
the resulting store — and then triggers a dispatch pass for the deleted
job's printer type. -/
theorem claim_C8 (env : Env) (now : Nat) (fo fo2 : FileOutcome) (jid : Nat) {s : Store}
    {job : PrintJob} (hnd : (s.jobs.map (fun x => x.id)).Nodup)
    (hj : get_job jid s = some job) :
    (job.status = Status.printing →
      api_delete_print_job env now fo jid s =
        (some "Cannot delete an active printing job. Mark it done or failed first.", s)) ∧
      (job.status ≠ Status.printing →
        (api_delete_print_job env now fo jid s).2 =
            (dispatch_next_job env now job.printerType
              { s with jobs := s.jobs.filter (fun k => decide (k.id ≠ job.id)) }).2 ∧
          (api_delete_print_job env now fo jid s).2 =
            (api_delete_print_job env now fo2 jid s).2 ∧
          (∀ k ∈ (api_delete_print_job env now fo jid s).2.jobs, k.id ≠ jid) ∧
          ∀ msg, fo = FileOutcome.error msg →
            (delete_print_job_with_file env now fo job s).1.fileError = some msg) := by
  obtain ⟨hjm, hjid⟩ := get_job_spec hj
  refine ⟨fun hp => delete_of_printing hj hp, fun hp => ?_⟩
  have h1 : (api_delete_print_job env now fo jid s).2 =
      (dispatch_next_job env now job.printerType
        { s with jobs := s.jobs.filter (fun k => decide (k.id ≠ job.id)) }).2 := by
    rw [delete_of_found hj hp]
  have h2 : (api_delete_print_job env now fo2 jid s).2 =
      (dispatch_next_job env now job.printerType
        { s with jobs := s.jobs.filter (fun k => decide (k.id ≠ job.id)) }).2 := by
    rw [delete_of_found hj hp]
  refine ⟨h1, by rw [h1, h2], ?_, fun msg hmsg => by rw [hmsg]; rfl⟩
  intro k hk
  have hndf : ((List.filter (fun k => decide (k.id ≠ job.id)) s.jobs).map
      (fun x => x.id)).Nodup :=
    ((List.filter_sublist s.jobs).map (fun x => x.id)).nodup hnd
  obtain ⟨_, hids, _, _, _⟩ := dispatch_master env now job.printerType _
    { s with jobs := s.jobs.filter (fun k => decide (k.id ≠ job.id)) } rfl hndf
  rw [h1] at hk
  have hkm : k.id ∈ (dispatch_next_job env now job.printerType
      { s with jobs := s.jobs.filter (fun k => decide (k.id ≠ job.id)) }).2.jobs.map
        (fun x => x.id) := List.mem_map_of_mem _ hk
  rw [hids] at hkm
  obtain ⟨x, hx, hxe⟩ := List.mem_map.mp hkm
  have hxf := List.mem_filter.mp hx
  have hxne : x.id ≠ job.id := by simpa using hxf.2
  rw [← hxe, ← hjid]
  exact hxne

/-- Witness for C8 at the queued job of `wstore1`, with a file-removal
error on one side and a successful removal on the other. -/
theorem claim_C8_witness :
    (wjob1.status = Status.printing →
      api_delete_print_job envNoTemplate 3 (FileOutcome.error "locked") 1 wstore1 =
        (some "Cannot delete an active printing job. Mark it done or failed first.",
          wstore1)) ∧
      (wjob1.status ≠ Status.printing →
        (api_delete_print_job envNoTemplate 3 (FileOutcome.error "locked") 1 wstore1).2 =
            (dispatch_next_job envNoTemplate 3 wjob1.printerType
              { wstore1 with
                jobs := wstore1.jobs.filter (fun k => decide (k.id ≠ wjob1.id)) }).2 ∧
          (api_delete_print_job envNoTemplate 3 (FileOutcome.error "locked") 1 wstore1).2 =
            (api_delete_print_job envNoTemplate 3 FileOutcome.removed 1 wstore1).2 ∧
          (∀ k ∈ (api_delete_print_job envNoTemplate 3 (FileOutcome.error "locked")
              1 wstore1).2.jobs, k.id ≠ 1) ∧
          ∀ msg, FileOutcome.error "locked" = FileOutcome.error msg →
            (delete_print_job_with_file envNoTemplate 3 (FileOutcome.error "locked")
              wjob1 wstore1).1.fileError = some msg) :=
  claim_C8 envNoTemplate 3 (FileOutcome.error "locked") FileOutcome.removed 1
    (by decide) (by rfl)

/-- The request parameters of one submission (member already resolved, file
already uploaded). -/
structure Submission where
  now : Nat
  memberId : Nat
  fileName : String
  filePath : String
  notes : Option String
deriving DecidableEq, Repr

/-- The store transition of one submit request. -/
def submit_step (env : Env) (pt : String) (s : Store) (sub : Submission) : Store :=
  (submit_print_job env sub.now sub.memberId pt sub.fileName sub.filePath sub.notes s).2

/-- Sequential submission of a batch, each submission triggering its
dispatch pass, as `submit_print_job` does. -/
def run_submissions (env : Env) (pt : String) (subs : List Submission) (s : Store) : Store :=
  subs.foldl (submit_step env pt) s

/-- The queued row `submit_print_job` inserts for a submission. -/
def new_job (pt : String) (nid : Nat) (sub : Submission) : PrintJob :=
  { id := nid, memberId := sub.memberId, printerType := pt, fileName := sub.fileName,
    filePath := sub.filePath, notes := sub.notes, status := Status.queued,
    submittedAt := sub.now, startedAt := none, completedAt := none }

/-- The final record of a submission once its own dispatch pass has run:
promoted, and failed when its launch failed. -/
def settled_job (env : Env) (pt : String) (nid : Nat) (sub : Submission) : PrintJob :=
  match launch_print_command env (startJob sub.now (new_job pt nid sub)) with
  | some err => failJob sub.now err (startJob sub.now (new_job pt nid sub))
  | none => startJob sub.now (new_job pt nid sub)

/-- The final records of a batch of submissions, with consecutive ids. -/
def settled_jobs (env : Env) (pt : String) (nid : Nat) : List Submission → List PrintJob
  | [] => []
  | sub :: rest => settled_job env pt nid sub :: settled_jobs env pt (nid + 1) rest

theorem submit_of_valid {env : Env} {now m : Nat} {pt fn fp : String} {notes : Option String}
    {s : Store} (hpt : pt ∈ PRINTER_TYPES) (hfn : fn ≠ "")
    (hext : allowed_gcode fn = true) :
    submit_print_job env now m pt fn fp notes s =
      (none, (dispatch_next_job env now pt
        { jobs := s.jobs ++ [new_job pt s.nextId ⟨now, m, fn, fp, notes⟩],
          nextId := s.nextId + 1 }).2) := by
  rw [submit_print_job, if_neg (fun hc => hc hpt), if_neg hfn, if_neg (by simp [hext])]
  rfl

theorem settled_job_of_fail {env : Env} {pt : String} {nid : Nat} {sub : Submission}
    {err : String}
    (heq : launch_print_command env (startJob sub.now (new_job pt nid sub)) = some err) :
    settled_job env pt nid sub = failJob sub.now err (startJob sub.now (new_job pt nid sub)) := by
  rw [settled_job]
  split
  · rename_i e he
    rw [heq] at he
    cases he
    rfl
  · rename_i he
    rw [heq] at he
    cases he

theorem settled_job_id (env : Env) (pt : String) (nid : Nat) (sub : Submission) :
    (settled_job env pt nid sub).id = nid := by
  rw [settled_job]
  split <;> rfl

theorem settled_job_printerType (env : Env) (pt : String) (nid : Nat) (sub : Submission) :
    (settled_job env pt nid sub).printerType = pt := by
  rw [settled_job]
  split <;> rfl

theorem settled_jobs_length (env : Env) (pt : String) :
    ∀ (subs : List Submission) (nid : Nat), (settled_jobs env pt nid subs).length = subs.length := by
  intro subs
  induction subs with
  | nil => intro nid; rfl
  | cons sub rest ih => intro nid; simp [settled_jobs, ih]

/-- Under an always-failing launcher every settled record is the
promoted-then-failed version of its submission, stamps included, with the
diagnostic appended to the submission's notes. -/
theorem settled_jobs_forall₂ (env : Env) (pt : String)
    (hfail : ∀ job : PrintJob, job.printerType = pt →
      (launch_print_command env job).isSome = true) :
    ∀ (subs : List Submission) (nid : Nat),
      List.Forall₂
        (fun (sub : Submission) (j : PrintJob) =>
          j.printerType = pt ∧ j.status = Status.failed ∧ j.submittedAt = sub.now ∧
            j.startedAt = some sub.now ∧ j.completedAt = some sub.now ∧
            ∃ err, j.notes = append_note sub.notes err)
        subs (settled_jobs env pt nid subs) := by
  intro subs
  induction subs with
  | nil => intro nid; exact List.Forall₂.nil
  | cons sub rest ih =>
    intro nid
    have hs := hfail (startJob sub.now (new_job pt nid sub)) rfl
    obtain ⟨err, heq⟩ := Option.isSome_iff_exists.mp hs
    refine List.Forall₂.cons ?_ (ih (nid + 1))
    rw [settled_job_of_fail heq]
    exact ⟨rfl, rfl, rfl, rfl, rfl, err, rfl⟩

theorem map_self_of {l : List PrintJob} {f : PrintJob → PrintJob}
    (h : ∀ a ∈ l, f a = a) : l.map f = l := by
  induction l with
  | nil => rfl
  | cons a t ih =>
    simp [h a (List.mem_cons_self a t), ih (fun x hx => h x (List.mem_cons_of_mem _ hx))]

/-- Promoting and failing a freshly appended row touches only that row. -/
theorem mark_append_fresh (now : Nat) (err : String) (l : List PrintJob) (new : PrintJob)
    (hfresh : ∀ j ∈ l, j.id ≠ new.id) :
    mark_failed new.id now err (mark_printing new.id now (l ++ [new])) =
      l ++ [failJob now err (startJob now new)] := by
  rw [mark_failed_mark_printing, List.map_append]
  congr 1
  · apply map_self_of
    intro a ha
    rw [if_neg (hfresh a ha)]
  · simp

/-- One valid submission against a store whose jobs of this printer type are
all failed, under an always-failing launcher: the new job is appended,
immediately promoted, fails, and the queue drains back to empty. -/
theorem submit_step_fail (env : Env) (pt : String)
    (hfail : ∀ job : PrintJob, job.printerType = pt →
      (launch_print_command env job).isSome = true)
    (hpt : pt ∈ PRINTER_TYPES) {s : Store} (sub : Submission)
    (hfn : sub.fileName ≠ "") (hext : allowed_gcode sub.fileName = true)
    (hclean : ∀ j ∈ s.jobs, j.printerType = pt → j.status = Status.failed)
    (hb : ∀ j ∈ s.jobs, j.id < s.nextId) :
    submit_step env pt s sub =
      { jobs := s.jobs ++ [settled_job env pt s.nextId sub], nextId := s.nextId + 1 } := by
  obtain ⟨err, heq⟩ := Option.isSome_iff_exists.mp
    (hfail (startJob sub.now (new_job pt s.nextId sub)) rfl)
  have hfresh : ∀ j ∈ s.jobs, j.id ≠ (new_job pt s.nextId sub).id := by
    intro j hj
    exact Nat.ne_of_lt (hb j hj)
  have hstep : submit_step env pt s sub =
      (dispatch_next_job env sub.now pt
        { jobs := s.jobs ++ [new_job pt s.nextId sub], nextId := s.nextId + 1 }).2 := by
    rw [submit_step, submit_of_valid hpt hfn hext]
  have ha1 : find_active pt
      { jobs := s.jobs ++ [new_job pt s.nextId sub], nextId := s.nextId + 1 } = none := by
    apply List.find?_eq_none.mpr
    intro x hx
    rcases List.mem_append.mp hx with hxo | hxn
    · intro hpx
      simp only [jobMatches, decide_eq_true_eq] at hpx
      have hxf := hclean x hxo hpx.1
      rw [hxf] at hpx
      cases hpx.2
    · rcases List.mem_singleton.mp hxn with rfl
      intro hpx
      simp [jobMatches, new_job] at hpx
  have hq1 : find_next_queued pt
      { jobs := s.jobs ++ [new_job pt s.nextId sub], nextId := s.nextId + 1 } =
      some (new_job pt s.nextId sub) := by
    show first_by keyLt
      ((s.jobs ++ [new_job pt s.nextId sub]).filter (jobMatches pt Status.queued)) = _
    rw [List.filter_append]
    have hfe : s.jobs.filter (jobMatches pt Status.queued) = [] := by
      rw [List.filter_eq_nil_iff]
      intro a ha hpa
      simp only [jobMatches, decide_eq_true_eq] at hpa
      have haf := hclean a ha hpa.1
      rw [haf] at hpa
      cases hpa.2
    have hft : [new_job pt s.nextId sub].filter (jobMatches pt Status.queued) =
        [new_job pt s.nextId sub] := by
      simp [jobMatches, new_job]
    rw [hfe, hft]
    rfl
  have ha2 : find_active pt
      { jobs := s.jobs ++ [failJob sub.now err (startJob sub.now (new_job pt s.nextId sub))],
        nextId := s.nextId + 1 } = none := by
    apply List.find?_eq_none.mpr
    intro x hx
    rcases List.mem_append.mp hx with hxo | hxn
    · intro hpx
      simp only [jobMatches, decide_eq_true_eq] at hpx
      have hxf := hclean x hxo hpx.1
      rw [hxf] at hpx
      cases hpx.2
    · rcases List.mem_singleton.mp hxn with rfl
      intro hpx
      simp [jobMatches, failJob, startJob, new_job] at hpx
  have hq2 : find_next_queued pt
      { jobs := s.jobs ++ [failJob sub.now err (startJob sub.now (new_job pt s.nextId sub))],
        nextId := s.nextId + 1 } = none := by
    show first_by keyLt
      ((s.jobs ++ [failJob sub.now err (startJob sub.now (new_job pt s.nextId sub))]).filter
        (jobMatches pt Status.queued)) = _
    rw [List.filter_append]
    have hfe : s.jobs.filter (jobMatches pt Status.queued) = [] := by
      rw [List.filter_eq_nil_iff]
      intro a ha hpa
      simp only [jobMatches, decide_eq_true_eq] at hpa
      have haf := hclean a ha hpa.1
      rw [haf] at hpa
      cases hpa.2
    have hft : [failJob sub.now err (startJob sub.now (new_job pt s.nextId sub))].filter
        (jobMatches pt Status.queued) = [] := by
      simp [jobMatches, failJob, startJob, new_job]
    rw [hfe, hft]
    rfl
  rw [hstep, dispatch_of_fail ha1 hq1 heq]
  rw [show ({ jobs := s.jobs ++ [new_job pt s.nextId sub], nextId := s.nextId + 1 } :
      Store).jobs = s.jobs ++ [new_job pt s.nextId sub] from rfl]
  rw [mark_append_fresh sub.now err s.jobs (new_job pt s.nextId sub) hfresh]
  rw [dispatch_of_empty ha2 hq2]
  rw [settled_job_of_fail heq]

/-- Sequential batch submission under an always-failing launcher: the final
store is the original rows followed by the settled (failed) records of all
submissions, with the auto-increment advanced by the batch size. -/
theorem run_submissions_fail (env : Env) (pt : String)
    (hfail : ∀ job : PrintJob, job.printerType = pt →
      (launch_print_command env job).isSome = true) (hpt : pt ∈ PRINTER_TYPES) :
    ∀ (subs : List Submission) (s : Store),
      (∀ sub ∈ subs, sub.fileName ≠ "" ∧ allowed_gcode sub.fileName = true) →
      (∀ j ∈ s.jobs, j.printerType = pt → j.status = Status.failed) →
      (∀ j ∈ s.jobs, j.id < s.nextId) →
      run_submissions env pt subs s =
        { jobs := s.jobs ++ settled_jobs env pt s.nextId subs,
          nextId := s.nextId + subs.length } := by
  intro subs
  induction subs with
  | nil =>
    intro s _ _ _
    show s = _
    simp [settled_jobs]
  | cons sub rest ih =>
    intro s hv hclean hb
    have hstep := submit_step_fail env pt hfail hpt sub
      (hv sub (List.mem_cons_self sub rest)).1 (hv sub (List.mem_cons_self sub rest)).2
      hclean hb
    have hchain : run_submissions env pt (sub :: rest) s =
        run_submissions env pt rest (submit_step env pt s sub) := rfl
    rw [hchain, hstep]
    have hsf : ∃ err, settled_job env pt s.nextId sub =
        failJob sub.now err (startJob sub.now (new_job pt s.nextId sub)) := by
      obtain ⟨err, heq⟩ := Option.isSome_iff_exists.mp
        (hfail (startJob sub.now (new_job pt s.nextId sub)) rfl)
      exact ⟨err, settled_job_of_fail heq⟩
    have hrec := ih
      { jobs := s.jobs ++ [settled_job env pt s.nextId sub], nextId := s.nextId + 1 }
      (fun x hx => hv x (List.mem_cons_of_mem _ hx))
      (by
        intro j hj hjpt
        rcases List.mem_append.mp hj with hjo | hjn
        · exact hclean j hjo hjpt
        · rcases List.mem_singleton.mp hjn with rfl
          obtain ⟨err, hsj⟩ := hsf
          rw [hsj]
          rfl)
      (by
        intro j hj
        rcases List.mem_append.mp hj with hjo | hjn
        · exact Nat.lt_succ_of_lt (hb j hjo)
        · rcases List.mem_singleton.mp hjn with rfl
          rw [settled_job_id]
          exact Nat.lt_succ_self _)
    rw [hrec]
    have hj : ({ jobs := s.jobs ++ [settled_job env pt s.nextId sub], nextId := s.nextId + 1 } : Store).jobs = s.jobs ++ [settled_job env pt s.nextId sub] := rfl
    have hn : ({ jobs := s.jobs ++ [settled_job env pt s.nextId sub], nextId := s.nextId + 1 } : Store).nextId = s.nextId + 1 := rfl
    rw [hj, hn, List.append_assoc]
    simp only [Store.mk.injEq]
    constructor
    · rfl
    · simp only [List.length_cons]
      omega

theorem settled_jobs_mem_failed (env : Env) (pt : String)
    (hfail : ∀ job : PrintJob, job.printerType = pt →
      (launch_print_command env job).isSome = true) :
    ∀ (subs : List Submission) (nid : Nat) (j : PrintJob),
      j ∈ settled_jobs env pt nid subs →
        j.printerType = pt ∧ j.status = Status.failed ∧ j.completedAt.isSome = true := by
  intro subs
  induction subs with
  | nil => intro nid j hj; cases hj
  | cons sub rest ih =>
    intro nid j hj
    obtain ⟨err, heq⟩ := Option.isSome_iff_exists.mp
      (hfail (startJob sub.now (new_job pt nid sub)) rfl)
    rw [settled_jobs] at hj
    rcases List.mem_cons.mp hj with rfl | hjr
    · rw [settled_job_of_fail heq]
      exact ⟨rfl, rfl, rfl⟩
    · exact ih (nid + 1) j hjr

/-- Claim C3: if the Command Launcher fails on every invocation for a
printer type, then sequentially submitting a batch of valid jobs (each
submission triggering its dispatch pass, as the handler does) to a store
with no jobs of that type ends with every submitted job failed — stamped
with `started_at` and `completed_at` and with the failure diagnostic
appended to (never overwriting) the submission's notes — exactly the batch
size many jobs of the type present, and the printer idle: no job of the
type queued and none active. -/
theorem claim_C3 (env : Env) (pt : String) (subs : List Submission) {s : Store}
    (hfail : ∀ job : PrintJob, job.printerType = pt →
      (launch_print_command env job).isSome = true)
    (hpt : pt ∈ PRINTER_TYPES)
    (hv : ∀ sub ∈ subs, sub.fileName ≠ "" ∧ allowed_gcode sub.fileName = true)
    (hnopt : ∀ j ∈ s.jobs, j.printerType ≠ pt)
    (hb : ∀ j ∈ s.jobs, j.id < s.nextId) :
    run_submissions env pt subs s =
        { jobs := s.jobs ++ settled_jobs env pt s.nextId subs,
          nextId := s.nextId + subs.length } ∧
      (∀ j ∈ (run_submissions env pt subs s).jobs, j.printerType = pt →
        j.status = Status.failed ∧ j.completedAt.isSome = true) ∧
      countQueued pt (run_submissions env pt subs s) = 0 ∧
      find_active pt (run_submissions env pt subs s) = none ∧
      ((run_submissions env pt subs s).jobs.filter
        (fun j => decide (j.printerType = pt))).length = subs.length ∧
      List.Forall₂
        (fun (sub : Submission) (j : PrintJob) =>
          j.printerType = pt ∧ j.status = Status.failed ∧ j.submittedAt = sub.now ∧
            j.startedAt = some sub.now ∧ j.completedAt = some sub.now ∧
            ∃ err, j.notes = append_note sub.notes err)
        subs (settled_jobs env pt s.nextId subs) := by
  have hrun := run_submissions_fail env pt hfail hpt subs s hv
    (fun j hj hjpt => absurd hjpt (hnopt j hj)) hb
  have hsp := settled_jobs_mem_failed env pt hfail subs s.nextId
  refine ⟨hrun, ?_, ?_, ?_, ?_, settled_jobs_forall₂ env pt hfail subs s.nextId⟩
  · intro j hj hjpt
    rw [hrun] at hj
    rcases List.mem_append.mp hj with hjo | hjs
    · exact absurd hjpt (hnopt j hjo)
    · exact ⟨(hsp j hjs).2.1, (hsp j hjs).2.2⟩
  · rw [hrun, countQueued]
    show ((s.jobs ++ settled_jobs env pt s.nextId subs).filter
      (jobMatches pt Status.queued)).length = 0
    rw [List.filter_append]
    have hfe : s.jobs.filter (jobMatches pt Status.queued) = [] := by
      rw [List.filter_eq_nil_iff]
      intro a ha hpa
      simp only [jobMatches, decide_eq_true_eq] at hpa
      exact hnopt a ha hpa.1
    have hfs : (settled_jobs env pt s.nextId subs).filter (jobMatches pt Status.queued) = [] := by
      rw [List.filter_eq_nil_iff]
      intro a ha hpa
      simp only [jobMatches, decide_eq_true_eq] at hpa
      have := (hsp a ha).2.1
      rw [this] at hpa
      cases hpa.2
    rw [hfe, hfs]
    rfl
  · rw [hrun]
    apply List.find?_eq_none.mpr
    intro x hx
    rcases List.mem_append.mp hx with hxo | hxs
    · intro hpx
      simp only [jobMatches, decide_eq_true_eq] at hpx
      exact hnopt x hxo hpx.1
    · intro hpx
      simp only [jobMatches, decide_eq_true_eq] at hpx
      have := (hsp x hxs).2.1
      rw [this] at hpx
      cases hpx.2
  · rw [hrun]
    show ((s.jobs ++ settled_jobs env pt s.nextId subs).filter
      (fun j => decide (j.printerType = pt))).length = subs.length
    rw [List.filter_append]
    have hfe : s.jobs.filter (fun j => decide (j.printerType = pt)) = [] := by
      rw [List.filter_eq_nil_iff]
      intro a ha hpa
      simp only [decide_eq_true_eq] at hpa
      exact hnopt a ha hpa
    have hfs : (settled_jobs env pt s.nextId subs).filter
        (fun j => decide (j.printerType = pt)) = settled_jobs env pt s.nextId subs := by
      apply List.filter_eq_self.mpr
      intro a ha
      simp only [decide_eq_true_eq]
      exact (hsp a ha).1
    rw [hfe, hfs, List.nil_append]
    exact settled_jobs_length env pt subs s.nextId

/-- Fixture: two valid submissions for the always-failing scenario, the
second carrying pre-existing notes. -/
def wsubs : List Submission :=
  [{ now := 1, memberId := 1, fileName := "a.gcode", filePath := "up/a.gcode", notes := none },
    { now := 2, memberId := 2, fileName := "b.3mf", filePath := "up/b.3mf",
      notes := some "rush order" }]

/-- Witness for C3: two submissions against the empty store with no command
template configured, so every launch fails. -/
theorem claim_C3_witness :
    run_submissions envNoTemplate "H2S" wsubs Store.init =
        { jobs := Store.init.jobs ++ settled_jobs envNoTemplate "H2S" Store.init.nextId wsubs,
          nextId := Store.init.nextId + wsubs.length } ∧
      (∀ j ∈ (run_submissions envNoTemplate "H2S" wsubs Store.init).jobs,
        j.printerType = "H2S" →
          j.status = Status.failed ∧ j.completedAt.isSome = true) ∧
      countQueued "H2S" (run_submissions envNoTemplate "H2S" wsubs Store.init) = 0 ∧
      find_active "H2S" (run_submissions envNoTemplate "H2S" wsubs Store.init) = none ∧
      ((run_submissions envNoTemplate "H2S" wsubs Store.init).jobs.filter
        (fun j => decide (j.printerType = "H2S"))).length = wsubs.length ∧
      List.Forall₂
        (fun (sub : Submission) (j : PrintJob) =>
          j.printerType = "H2S" ∧ j.status = Status.failed ∧ j.submittedAt = sub.now ∧
            j.startedAt = some sub.now ∧ j.completedAt = some sub.now ∧
            ∃ err, j.notes = append_note sub.notes err)
        wsubs (settled_jobs envNoTemplate "H2S" Store.init.nextId wsubs) :=
  claim_C3 envNoTemplate "H2S" wsubs (fun _ _ => rfl) (by decide) (by decide)
    (by intro j hj; cases hj) (by intro j hj; cases hj)

theorem finKeyLt_not_total (a b : PrintJob) :
    (!(finKeyLt a b)) || (!(finKeyLt b a)) := by
  simp only [finKeyLt, Bool.or_eq_true, Bool.not_eq_eq_eq_not, Bool.not_true,
    decide_eq_false_iff_not]
  by_cases h : optRank a.completedAt < optRank b.completedAt ∨
      (optRank a.completedAt = optRank b.completedAt ∧ a.id < b.id)
  · right
    omega
  · left
    exact h

theorem finKeyLt_false_trans {a b c : PrintJob} (h1 : finKeyLt a b = false)
    (h2 : finKeyLt b c = false) : finKeyLt a c = false := by
  simp only [finKeyLt, decide_eq_false_iff_not] at *
  omega

theorem qle_total (a b : PrintJob) : (!(keyLt b a)) || (!(keyLt a b)) := by
  simp only [keyLt, Bool.or_eq_true, Bool.not_eq_eq_eq_not, Bool.not_true,
    decide_eq_false_iff_not]
  by_cases h : b.submittedAt < a.submittedAt ∨ (b.submittedAt = a.submittedAt ∧ b.id < a.id)
  · right
    omega
  · left
    exact h

/-- Fixture: a terminal (`done`) H2S job with primary key and completion
time `n`. -/
def wjobFin (n : Nat) : PrintJob :=
  { id := n, memberId := 1, printerType := "H2S", fileName := "a.gcode",
    filePath := "up/a.gcode", notes := none, status := Status.done,
    submittedAt := 0, startedAt := some 0, completedAt := some n }

/-- Fixture: a store holding nine terminal H2S jobs. -/
def wstore9 : Store := { jobs := (List.range 9).map (fun n => wjobFin (n + 1)), nextId := 10 }

/-- Counterexample to claim C9 as stated: the terminal-jobs limit is not a
configurable N with default 8 — `get_queue_snapshot` hard-codes `.limit(8)`
(app.py line 742) and takes no limit parameter at all (its whole input is
the store).  At a store holding 9 terminal jobs of the type, the snapshot
reports only 8 of them, so for every N ≠ 8 the "most recent N" reading of
the claim fails at this input, and no configuration exists to change it. -/
theorem claim_C9_counterexample :
    (wstore9.jobs.filter (isFinished "H2S")).length = 9 ∧
      (snapshot_for "H2S" wstore9).recentFinished.length = 8 ∧
      (snapshot_for "H2S" wstore9).recentFinished.length ≠
        (wstore9.jobs.filter (isFinished "H2S")).length := by
  have h9 : (wstore9.jobs.filter (isFinished "H2S")).length = 9 := by decide
  have h8 : (snapshot_for "H2S" wstore9).recentFinished.length = 8 := by
    show (((wstore9.jobs.filter (isFinished "H2S")).mergeSort
      (fun a b => !(finKeyLt a b))).take 8).length = 8
    rw [List.length_take, List.length_mergeSort, h9]
    decide
  refine ⟨h9, h8, ?_⟩
  rw [h9, h8]
  decide

/-- Claim C9 as amended (forced by the counterexample): the Queue Snapshot
Builder is a pure projection of the Job Store (it returns a payload and no
store, so mutates nothing) listing every configured printer type.  Per
printer type it reports: the currently active (`printing`) row or `none`
exactly when there is none; the queued rows — precisely those of the store,
in the total ascending `(submitted_at, id)` order; and the at most 8 most
recent terminal (`done`/`failed`) rows in descending `(completed_at, id)`
order, where 8 is the code's fixed constant (the `.limit(8)` of app.py line
742), not a configurable parameter — every omitted terminal row sorts at or
below every reported one. -/
theorem claim_C9 (pt : String) (s : Store) :
    get_queue_snapshot s = [("H2S", snapshot_for "H2S" s), ("P1S", snapshot_for "P1S" s)] ∧
      ((snapshot_for pt s).active = none ↔
        ∀ j ∈ s.jobs, jobMatches pt Status.printing j = false) ∧
      (∀ a : PrintJob, (snapshot_for pt s).active = some a →
        a ∈ s.jobs ∧ a.printerType = pt ∧ a.status = Status.printing) ∧
      (snapshot_for pt s).queued.Perm (s.jobs.filter (jobMatches pt Status.queued)) ∧
      (snapshot_for pt s).queued.Pairwise (fun a b => keyLt b a = false) ∧
      (∀ j ∈ (snapshot_for pt s).recentFinished, j ∈ s.jobs ∧ isFinished pt j = true) ∧
      (snapshot_for pt s).recentFinished.Pairwise (fun a b => finKeyLt a b = false) ∧
      (snapshot_for pt s).recentFinished.length =
        min 8 (s.jobs.filter (isFinished pt)).length ∧
      (∀ y ∈ s.jobs.filter (isFinished pt), y ∉ (snapshot_for pt s).recentFinished →
        ∀ x ∈ (snapshot_for pt s).recentFinished, finKeyLt x y = false) := by
  refine ⟨rfl, ?_, ?_, ?_, ?_, ?_, ?_, ?_, ?_⟩
  · constructor
    · intro h j hj
      have hfe : s.jobs.filter (jobMatches pt Status.printing) = [] := first_by_eq_none.mp h
      by_cases hpj : jobMatches pt Status.printing j = true
      · have : j ∈ s.jobs.filter (jobMatches pt Status.printing) :=
          List.mem_filter.mpr ⟨hj, hpj⟩
        rw [hfe] at this
        cases this
      · simpa using hpj
    · intro h
      apply first_by_eq_none.mpr
      rw [List.filter_eq_nil_iff]
      intro a ha hpa
      rw [h a ha] at hpa
      cases hpa
  · intro a ha
    have hmem := first_by_mem ha
    have hfil := List.mem_filter.mp hmem
    have hp := hfil.2
    simp only [jobMatches, decide_eq_true_eq] at hp
    exact ⟨hfil.1, hp.1, hp.2⟩
  · exact List.mergeSort_perm _ _
  · have hs := List.sorted_mergeSort
      (fun a b c (h1 : (!(keyLt b a)) = true) (h2 : (!(keyLt c b)) = true) => by
        simp only [Bool.not_eq_eq_eq_not, Bool.not_true] at *
        exact keyLt_false_trans h2 h1)
      qle_total (s.jobs.filter (jobMatches pt Status.queued))
    apply hs.imp
    intro a b hab
    simpa using hab
  · intro j hj
    have hmem : j ∈ (s.jobs.filter (isFinished pt)).mergeSort (fun a b => !(finKeyLt a b)) :=
      (List.take_sublist _ _).mem hj
    have hfil := List.mem_filter.mp (List.mem_mergeSort.mp hmem)
    exact ⟨hfil.1, hfil.2⟩
  · have hs := List.sorted_mergeSort
      (fun a b c (h1 : (!(finKeyLt a b)) = true) (h2 : (!(finKeyLt b c)) = true) => by
        simp only [Bool.not_eq_eq_eq_not, Bool.not_true] at *
        exact finKeyLt_false_trans h1 h2)
      finKeyLt_not_total (s.jobs.filter (isFinished pt))
    have hst : (snapshot_for pt s).recentFinished.Pairwise
        (fun a b => (!(finKeyLt a b)) = true) :=
      hs.sublist (List.take_sublist _ _)
    apply hst.imp
    intro a b hab
    simpa using hab
  · show (((s.jobs.filter (isFinished pt)).mergeSort
      (fun a b => !(finKeyLt a b))).take 8).length = _
    rw [List.length_take, List.length_mergeSort]
  · intro y hy hyn x hx
    have hs := List.sorted_mergeSort
      (fun a b c (h1 : (!(finKeyLt a b)) = true) (h2 : (!(finKeyLt b c)) = true) => by
        simp only [Bool.not_eq_eq_eq_not, Bool.not_true] at *
        exact finKeyLt_false_trans h1 h2)
      finKeyLt_not_total (s.jobs.filter (isFinished pt))
    have hyL : y ∈ (s.jobs.filter (isFinished pt)).mergeSort (fun a b => !(finKeyLt a b)) :=
      List.mem_mergeSort.mpr hy
    rw [← List.take_append_drop 8
      ((s.jobs.filter (isFinished pt)).mergeSort (fun a b => !(finKeyLt a b)))] at hyL
    rcases List.mem_append.mp hyL with hyt | hyd
    · exact absurd hyt hyn
    · have hsp : ((s.jobs.filter (isFinished pt)).mergeSort
          (fun a b => !(finKeyLt a b))).Pairwise (fun a b => (!(finKeyLt a b)) = true) := hs
      rw [← List.take_append_drop 8
        ((s.jobs.filter (isFinished pt)).mergeSort (fun a b => !(finKeyLt a b)))] at hsp
      have := (List.pairwise_append.mp hsp).2.2 x hx y hyd
      simpa using this

/-- Witness for C9 at a concrete printer type and store. -/
theorem claim_C9_witness :
    get_queue_snapshot wstore1 =
        [("H2S", snapshot_for "H2S" wstore1), ("P1S", snapshot_for "P1S" wstore1)] ∧
      ((snapshot_for "H2S" wstore1).active = none ↔
        ∀ j ∈ wstore1.jobs, jobMatches "H2S" Status.printing j = false) ∧
      (∀ a : PrintJob, (snapshot_for "H2S" wstore1).active = some a →
        a ∈ wstore1.jobs ∧ a.printerType = "H2S" ∧ a.status = Status.printing) ∧
      (snapshot_for "H2S" wstore1).queued.Perm
        (wstore1.jobs.filter (jobMatches "H2S" Status.queued)) ∧
      (snapshot_for "H2S" wstore1).queued.Pairwise (fun a b => keyLt b a = false) ∧
      (∀ j ∈ (snapshot_for "H2S" wstore1).recentFinished,
        j ∈ wstore1.jobs ∧ isFinished "H2S" j = true) ∧
      (snapshot_for "H2S" wstore1).recentFinished.Pairwise
        (fun a b => finKeyLt a b = false) ∧
      (snapshot_for "H2S" wstore1).recentFinished.length =
        min 8 (wstore1.jobs.filter (isFinished "H2S")).length ∧
      (∀ y ∈ wstore1.jobs.filter (isFinished "H2S"),
        y ∉ (snapshot_for "H2S" wstore1).recentFinished →
        ∀ x ∈ (snapshot_for "H2S" wstore1).recentFinished, finKeyLt x y = false) :=
  claim_C9 "H2S" wstore1

/-- Witness for C5: a concrete job against an environment with no template
configured, and a configured template with a failing runner. -/
theorem claim_C5_witness :
    (((fun v => if v = "ASME_H2S_PRINT_CMD" then some "run {file}" else none)
          "ASME_H2S_PRINT_CMD" = none ∨
        (fun v => if v = "ASME_H2S_PRINT_CMD" then some "run {file}" else none)
          "ASME_H2S_PRINT_CMD" = some "") →
      launch_print_command
          ⟨fun v => if v = "ASME_H2S_PRINT_CMD" then some "run {file}" else none,
            fun _ => ⟨1, "out", "boom"⟩⟩
          { id := 1, memberId := 1, printerType := "H2S", fileName := "a.gcode",
            filePath := "up/a.gcode", notes := none, status := Status.queued,
            submittedAt := 0, startedAt := none, completedAt := none } =
          some ("ASME_H2S_PRINT_CMD" ++
            " is not configured. Add it to print_commands.env and restart the app.") ∧
        launch_print_command
            ⟨fun v => if v = "ASME_H2S_PRINT_CMD" then some "run {file}" else none,
              fun _ => ⟨1, "out", "boom"⟩⟩
            { id := 1, memberId := 1, printerType := "H2S", fileName := "a.gcode",
              filePath := "up/a.gcode", notes := none, status := Status.queued,
              submittedAt := 0, startedAt := none, completedAt := none } =
          launch_print_command
            ⟨fun v => if v = "ASME_H2S_PRINT_CMD" then some "run {file}" else none,
              fun _ => ⟨0, "", ""⟩⟩
            { id := 1, memberId := 1, printerType := "H2S", fileName := "a.gcode",
              filePath := "up/a.gcode", notes := none, status := Status.queued,
              submittedAt := 0, startedAt := none, completedAt := none }) ∧
    ((fun v => if v = "ASME_H2S_PRINT_CMD" then some "run {file}" else none)
        "ASME_H2S_PRINT_CMD" = some "run {file}" → "run {file}" ≠ "" →
      (launch_print_command
          ⟨fun v => if v = "ASME_H2S_PRINT_CMD" then some "run {file}" else none,
            fun _ => ⟨1, "out", "boom"⟩⟩
          { id := 1, memberId := 1, printerType := "H2S", fileName := "a.gcode",
            filePath := "up/a.gcode", notes := none, status := Status.queued,
            submittedAt := 0, startedAt := none, completedAt := none } = none ↔
        ((fun (_ : String) => (⟨1, "out", "boom"⟩ : ProcResult))
          (print_command "run {file}"
            { id := 1, memberId := 1, printerType := "H2S", fileName := "a.gcode",
              filePath := "up/a.gcode", notes := none, status := Status.queued,
              submittedAt := 0, startedAt := none, completedAt := none })).returncode = 0) ∧
      (((fun (_ : String) => (⟨1, "out", "boom"⟩ : ProcResult))
          (print_command "run {file}"
            { id := 1, memberId := 1, printerType := "H2S", fileName := "a.gcode",
              filePath := "up/a.gcode", notes := none, status := Status.queued,
              submittedAt := 0, startedAt := none, completedAt := none })).returncode ≠ 0 →
        launch_print_command
            ⟨fun v => if v = "ASME_H2S_PRINT_CMD" then some "run {file}" else none,
              fun _ => ⟨1, "out", "boom"⟩⟩
            { id := 1, memberId := 1, printerType := "H2S", fileName := "a.gcode",
              filePath := "up/a.gcode", notes := none, status := Status.queued,
              submittedAt := 0, startedAt := none, completedAt := none } =
            some ("ASME_H2S_PRINT_CMD" ++ " failed: " ++
              py_slice ((str_or "boom" (str_or "out" "print command failed")).trim) 300) ∧
          (py_slice ((str_or "boom" (str_or "out" "print command failed")).trim)
            300).length ≤ 300)) :=
  claim_C5 (fun v => if v = "ASME_H2S_PRINT_CMD" then some "run {file}" else none)
    (fun _ => ⟨1, "out", "boom"⟩) (fun _ => ⟨0, "", ""⟩)
    { id := 1, memberId := 1, printerType := "H2S", fileName := "a.gcode",
      filePath := "up/a.gcode", notes := none, status := Status.queued,
      submittedAt := 0, startedAt := none, completedAt := none } "run {file}"

end ASME
